import Mathlib

/-!
Verification of the reactivity core of the repository (Vue 2 observer
system).  The embedding translates the three source files:

* src/unnamed/part_000 (class Dep, pushTarget, popTarget),
* src/src/core/observer/watcher.js (class Watcher),
* src/src/core/observer/index.js (Observer, defineReactive, set, del).

Stateful JavaScript is modelled by explicit state passing.  External
collaborators that the specification declares out of scope (the scheduler
queue, the error handler, the deep-traversal helper, callbacks) are
modelled as ghost logs appended to the state, so that the theorems can
observe which external calls the core performed.
-/

namespace Vue

/-! ### JavaScript values -/

/-- Shallow model of the JavaScript values handled by the observer core:
undefined, null, numbers (with the not-a-number value kept as a separate
constructor, since strict equality on it is never true), strings and
object references compared by identity. -/
inductive JSV where
  | undef
  | null
  | num (n : Int)
  | nan
  | str (s : String)
  | ref (id : Nat)
deriving DecidableEq, Repr

/-- JavaScript strict equality (the triple-equals operator).  The
not-a-number value is never strictly equal to anything, itself included. -/
def strictEq (a b : JSV) : Bool :=
  match a, b with
  | .nan, _ => false
  | _, .nan => false
  | a, b => decide (a = b)

/-- The isObject utility: true exactly for object references. -/
def isObjectM (v : JSV) : Bool :=
  match v with
  | .ref _ => true
  | _ => false

/-- Result of the observe call on a value: observe returns an Observer for
object values (observation preconditions of section 4.3 of the spec are
assumed satisfied) and nothing for non-objects.  We record the observed
value itself. -/
def observeM (v : JSV) : Option JSV :=
  if isObjectM v then some v else none

/-! ### Reactive accessor pair (defineReactive, index.js lines 157-243)

The closure state of one property defined by defineReactive: the backing
value val, the preserved pre-existing accessor pair (getter and setter
read and write an external object state of type s), the shallow flag and
the presence of a customSetter.  The property Dep is observed through the
notified flag of the write-effect record. -/

structure PropClosure (σ : Type) where
  val : JSV
  getter : Option (σ → JSV)
  setter : Option (σ → JSV → σ)
  shallow : Bool
  customSetter : Bool

/-- Observable effect of one write through the reactive accessor:
the closure value afterwards, the external object state afterwards, the
child observer reference afterwards, whether the customSetter fired and
whether dep.notify() was called. -/
structure WriteEff (σ : Type) where
  val : JSV
  obj : σ
  childOb : Option JSV
  customSetterCalled : Bool
  notified : Bool

/-- The value the setter compares against: the preserved getter applied to
the object when present, the closure value otherwise (index.js line 217). -/
def currentValue {σ : Type} (c : PropClosure σ) (obj : σ) : JSV :=
  match c.getter with
  | some g => g obj
  | none => c.val

/-- The skip condition of the setter (index.js line 220): the new value is
strictly equal to the current one, or both are not-a-number. -/
def skipWrite (newVal value : JSV) : Bool :=
  strictEq newVal value || (!strictEq newVal newVal && !strictEq value value)

/-- Translation of function reactiveSetter (index.js lines 215-241).
Arguments: the property closure, the production flag, the external object
state, the current child observer, the incoming value. -/
def reactiveSetter {σ : Type} (c : PropClosure σ) (production : Bool)
    (obj : σ) (childOb : Option JSV) (newVal : JSV) : WriteEff σ :=
  let value := currentValue c obj
  if skipWrite newVal value then
    ⟨c.val, obj, childOb, false, false⟩
  else
    let csc := !production && c.customSetter
    if c.getter.isSome && !c.setter.isSome then
      ⟨c.val, obj, childOb, csc, false⟩
    else
      match c.setter with
      | some st =>
        ⟨c.val, st obj newVal, if !c.shallow then observeM newVal else none, csc, true⟩
      | none =>
        ⟨newVal, obj, if !c.shallow then observeM newVal else none, csc, true⟩

/-! ### The mutation API: set and del (index.js lines 252-317)

Targets are modelled as JavaScript values: undefined, null, a primitive
(represented by a number), a plain object or an array.  Object field
values are opaque (numbers); property-level accessor behaviour is covered
by the reactiveSetter model above, so here a field assignment simply
stores the value.  Keys distinguish array indices from string keys;
numeric strings that pass isValidArrayIndex are represented as index
keys. -/

inductive Key where
  | idx (n : Nat)
  | str (s : String)
deriving DecidableEq, Repr

/-- JavaScript runtime failures raised by the modelled operations. -/
inductive JsErr where
  | typeError
deriving DecidableEq, Repr

/-- Own enumerable keys of Object.prototype relevant to the in-operator
guard of function set: a key naming one of these is found on the
prototype chain of every plain object. -/
def objectProtoKeys : List Key :=
  [.str "constructor", .str "hasOwnProperty", .str "isPrototypeOf",
   .str "propertyIsEnumerable", .str "toLocaleString", .str "toString",
   .str "valueOf", .str "__proto__", .str "__defineGetter__",
   .str "__defineSetter__", .str "__lookupGetter__", .str "__lookupSetter__"]

/-- Method keys found on Array.prototype (the mutators intercepted by the
observer plus common accessors), used by the in-operator on arrays. -/
def arrayProtoKeys : List Key :=
  [.str "push", .str "pop", .str "shift", .str "unshift", .str "splice",
   .str "sort", .str "reverse", .str "concat", .str "slice",
   .str "indexOf", .str "length"]

/-- A plain object target: own fields with opaque values, the keys that
carry a reactive accessor installed by defineReactive, the optional
attached Observer (carrying its vmCount) and the _isVue marker. -/
structure ObjT where
  fields : List (Key × Nat)
  reactiveKeys : List Key
  ob : Option Nat
  isVue : Bool
deriving DecidableEq, Repr

/-- An array target: elements (holes produced by growing length are
modelled as value 0), string-keyed expando fields, reactive expando keys
and the optional attached Observer. -/
structure ArrT where
  elems : List Nat
  strFields : List (Key × Nat)
  reactiveKeys : List Key
  ob : Option Nat
deriving DecidableEq, Repr

/-- A target value passed to set or del. -/
inductive Tgt where
  | undef
  | null
  | prim (n : Int)
  | obj (o : ObjT)
  | arr (a : ArrT)
deriving DecidableEq, Repr

/-- The isUndef utility: true for undefined and null. -/
def isUndefM (t : Tgt) : Bool :=
  match t with
  | .undef => true
  | .null => true
  | _ => false

/-- The isPrimitive utility (primitives are modelled as numbers). -/
def isPrimM (t : Tgt) : Bool :=
  match t with
  | .prim _ => true
  | _ => false

/-- The isValidArrayIndex utility on modelled keys: index keys qualify,
string keys do not (numeric strings are represented as index keys). -/
def isValidArrayIndexM (k : Key) : Bool :=
  match k with
  | .idx _ => true
  | .str _ => false

/-- Assoc-list update: replace the binding of the key if present, append
it otherwise. -/
def setField : List (Key × Nat) → Key → Nat → List (Key × Nat)
  | [], k, v => [(k, v)]
  | (k0, v0) :: rest, k, v =>
    if k0 = k then (k, v) :: rest else (k0, v0) :: setField rest k v

/-- Assoc-list removal of the binding of a key (the delete operator). -/
def removeField : List (Key × Nat) → Key → List (Key × Nat)
  | [], _ => []
  | (k0, v0) :: rest, k =>
    if k0 = k then rest else (k0, v0) :: removeField rest k

/-- Own keys of a target, as used by the hasOwn utility.  Primitives
auto-box to wrappers without own data fields in the modelled fragment. -/
def hasOwnM (t : Tgt) (k : Key) : Bool :=
  match t with
  | .obj o => decide (k ∈ o.fields.map Prod.fst)
  | .arr a =>
    (match k with
     | .idx n => decide (n < a.elems.length)
     | .str _ => decide (k ∈ a.strFields.map Prod.fst))
  | _ => false

/-- The JavaScript in-operator.  Its right operand must be an object:
undefined, null and primitives raise a TypeError.  For objects it also
searches the prototype chain. -/
def jsIn (k : Key) (t : Tgt) : Except JsErr Bool :=
  match t with
  | .undef => .error .typeError
  | .null => .error .typeError
  | .prim _ => .error .typeError
  | .obj o => .ok (decide (k ∈ o.fields.map Prod.fst) || decide (k ∈ objectProtoKeys))
  | .arr a =>
    .ok ((match k with
          | .idx n => decide (n < a.elems.length)
          | .str _ => decide (k ∈ a.strFields.map Prod.fst))
         || decide (k ∈ arrayProtoKeys) || decide (k ∈ objectProtoKeys))

/-- Reading the hidden __ob__ back-reference: throws on undefined and
null, yields nothing on primitives (auto-boxing), yields the attached
Observer (as its vmCount) on containers. -/
def getObM (t : Tgt) : Except JsErr (Option Nat) :=
  match t with
  | .undef => .error .typeError
  | .null => .error .typeError
  | .prim _ => .ok none
  | .obj o => .ok o.ob
  | .arr a => .ok a.ob

/-- Reading the _isVue marker (only reached after the __ob__ read
succeeded, hence no failure case is needed). -/
def isVueM (t : Tgt) : Bool :=
  match t with
  | .obj o => o.isVue
  | _ => false

/-- Truthiness of ob && ob.vmCount. -/
def obVmTruthy (ob : Option Nat) : Bool :=
  match ob with
  | some vc => decide (vc ≠ 0)
  | none => false

/-- Plain assignment target[key] = val on a container. -/
def assignField (t : Tgt) (k : Key) (v : Nat) : Tgt :=
  match t with
  | .obj o => .obj { o with fields := setField o.fields k v }
  | .arr a => .arr { a with strFields := setField a.strFields k v }
  | t => t

/-- Effect of defineReactive(ob.value, key, val) as invoked by set: store
the value and install (or reinstall) a reactive accessor for the key. -/
def defineReactiveOn (t : Tgt) (k : Key) (v : Nat) : Tgt :=
  match t with
  | .obj o =>
    .obj { o with
           fields := setField o.fields k v,
           reactiveKeys := if k ∈ o.reactiveKeys then o.reactiveKeys else o.reactiveKeys ++ [k] }
  | .arr a =>
    .arr { a with
           strFields := setField a.strFields k v,
           reactiveKeys := if k ∈ a.reactiveKeys then a.reactiveKeys else a.reactiveKeys ++ [k] }
  | t => t

/-- The array branch of set: target.length = max(target.length, key)
followed by the intercepted splice(key, 1, val). -/
def spliceSet (a : ArrT) (i : Nat) (v : Nat) : ArrT :=
  if i < a.elems.length then { a with elems := a.elems.set i v }
  else { a with elems := (a.elems ++ List.replicate (i - a.elems.length) 0) ++ [v] }

/-- The array branch of del: the intercepted splice(key, 1). -/
def spliceDel (a : ArrT) (i : Nat) : ArrT :=
  { a with elems := a.elems.eraseIdx i }

/-- Which branch of function set ran, for the record of its effect. -/
inductive SetPath where
  | arraySplice
  | existingKey
  | rootWarn
  | plainAssign
  | defineNotify
deriving DecidableEq, Repr

/-- Result of a non-throwing call to set: the target afterwards, the
returned value, whether the container-level Dep was notified, whether the
root-data warning fired, and the branch taken. -/
structure SetRes where
  target : Tgt
  ret : Nat
  obNotified : Bool
  rootWarned : Bool
  path : SetPath
deriving DecidableEq, Repr

/-- Translation of function set (index.js lines 252-286).  The first
component records whether the entry warning for undefined, null or
primitive targets fired (it precedes any possible TypeError). -/
def set (production : Bool) (t : Tgt) (key : Key) (val : Nat) :
    Bool × Except JsErr SetRes :=
  let warned := !production && (isUndefM t || isPrimM t)
  (warned,
    match t, key with
    | .arr a, .idx i =>
      -- Array.isArray(target) && isValidArrayIndex(key): exactly the
      -- array targets paired with index keys in this model.
      .ok ⟨.arr (spliceSet a i val), val, a.ob.isSome, false, .arraySplice⟩
    | t, key =>
      match jsIn key t with
      | .error e => .error e
      | .ok inTarget =>
        if inTarget && !decide (key ∈ objectProtoKeys) then
          .ok ⟨assignField t key val, val, false, false, .existingKey⟩
        else
          match getObM t with
          | .error e => .error e
          | .ok ob =>
            if isVueM t || obVmTruthy ob then
              .ok ⟨t, val, false, !production, .rootWarn⟩
            else
              match ob with
              | none => .ok ⟨assignField t key val, val, false, false, .plainAssign⟩
              | some _ => .ok ⟨defineReactiveOn t key val, val, true, false, .defineNotify⟩)

/-- Result of a non-throwing call to del. -/
structure DelRes where
  target : Tgt
  obNotified : Bool
  rootWarned : Bool
deriving DecidableEq, Repr

/-- Translation of function del (index.js lines 291-317).  The first
component records whether the entry warning fired. -/
def del (production : Bool) (t : Tgt) (key : Key) :
    Bool × Except JsErr DelRes :=
  let warned := !production && (isUndefM t || isPrimM t)
  (warned,
    match t, key with
    | .arr a, .idx i =>
      -- Array.isArray(target) && isValidArrayIndex(key).
      .ok ⟨.arr (spliceDel a i), a.ob.isSome, false⟩
    | t, key =>
      match getObM t with
      | .error e => .error e
      | .ok ob =>
        if isVueM t || obVmTruthy ob then
          .ok ⟨t, false, !production⟩
        else if !hasOwnM t key then
          .ok ⟨t, false, false⟩
        else
          let t1 :=
            match t with
            | .obj o => .obj { o with fields := removeField o.fields key }
            | .arr a => .arr { a with strFields := removeField a.strFields key }
            | t => t
          match ob with
          | none => .ok ⟨t1, false, false⟩
          | some _ => .ok ⟨t1, true, false⟩)

/-! ### The dependency graph: Dep and Watcher

Dep instances are identified by their unique id (a Nat); Watcher
instances by their unique uid.  The global state RSys holds the
subscriber list of every Dep, the record of every Watcher, the vm scopes,
the evaluation context stack with the Dep.target variable, the two
configuration flags, and ghost logs recording calls into the external
collaborators (handleError, queueWatcher, the callback of a watcher) plus
a trace of update() invocations. -/

/-- One step of a getter body: reading a reactive property (which calls
depend() on its Dep), throwing, or re-entrantly evaluating another
watcher whose getter body and returned value are carried inline. -/
inductive Act where
  | read (d : Nat)
  | fail (e : Nat)
  | nested (wid : Nat) (user : Bool) (body : List Act) (ret : JSV)

/-- Per-watcher state (watcher.js fields). -/
structure WState where
  deps : List Nat
  newDeps : List Nat
  depIds : List Nat
  newDepIds : List Nat
  active : Bool
  user : Bool
  deep : Bool
  lazyW : Bool
  sync : Bool
  dirty : Bool
  value : JSV
  getterActs : List Act
  getterRet : JSV
  vmId : Nat

/-- Per-vm scope state: the _watchers list and the _isBeingDestroyed
flag. -/
structure VmState where
  watchers : List Nat
  isBeingDestroyed : Bool

/-- Global state of the reactivity system. -/
structure RSys where
  subs : Nat → List Nat
  watchers : Nat → WState
  vms : Nat → VmState
  stack : List (Option Nat)
  target : Option Nat
  production : Bool
  async : Bool
  errLog : List Nat
  updateLog : List Nat
  queued : List Nat
  cbLog : List (Nat × JSV × JSV)

/-- The value of Dep.target determined by the stack: the last pushed
entry, or none when the stack is empty (targetStack[targetStack.length -
1] evaluates to undefined then). -/
def stackTarget (st : List (Option Nat)) : Option Nat :=
  (st.getLast?).bind id

/-- pushTarget (part_000 lines 56-59). -/
def pushTarget (t : Option Nat) (s : RSys) : RSys :=
  { s with stack := s.stack ++ [t], target := t }

/-- popTarget (part_000 lines 61-64). -/
def popTarget (s : RSys) : RSys :=
  { s with stack := s.stack.dropLast, target := stackTarget s.stack.dropLast }

/-- Dep.addSub: push the watcher onto the subscriber list. -/
def addSub (d : Nat) (wid : Nat) (s : RSys) : RSys :=
  { s with subs := fun d' => if d' = d then s.subs d' ++ [wid] else s.subs d' }

/-- Dep.removeSub: the remove utility deletes the first occurrence. -/
def removeSub (d : Nat) (wid : Nat) (s : RSys) : RSys :=
  { s with subs := fun d' => if d' = d then (s.subs d').erase wid else s.subs d' }

/-- Store an updated watcher record. -/
def setW (wid : Nat) (w : WState) (s : RSys) : RSys :=
  { s with watchers := fun i => if i = wid then w else s.watchers i }

/-- Store an updated vm record. -/
def setVm (vid : Nat) (vm : VmState) (s : RSys) : RSys :=
  { s with vms := fun i => if i = vid then vm else s.vms i }

/-- Watcher.addDep (watcher.js lines 152-163): record the Dep in the
current generation unless already recorded, and subscribe unless it was
already a subscription of the previous generation. -/
def addDep (wid : Nat) (d : Nat) (s : RSys) : RSys :=
  let w := s.watchers wid
  if d ∈ w.newDepIds then s
  else
    let s1 := setW wid { w with newDepIds := w.newDepIds ++ [d],
                                newDeps := w.newDeps ++ [d] } s
    if d ∈ w.depIds then s1 else addSub d wid s1

/-- Dep.depend (part_000 lines 26-30): delegate to the current consumer
when one exists. -/
def depend (d : Nat) (s : RSys) : RSys :=
  match s.target with
  | some wid => addDep wid d s
  | none => s

/-- Watcher.cleanupDeps (watcher.js lines 169-194): unsubscribe from every
previous-generation Dep absent from the current generation, then promote
the current generation and clear the buffers. -/
def cleanupDeps (wid : Nat) (s : RSys) : RSys :=
  let w := s.watchers wid
  let s1 := w.deps.reverse.foldl
    (fun acc dep => if dep ∈ w.newDepIds then acc else removeSub dep wid acc) s
  setW wid { w with depIds := w.newDepIds, newDepIds := [],
                    deps := w.newDeps, newDeps := [] } s1

/-- The catch and finally blocks of Watcher.get (watcher.js lines
125-144): on failure, a user watcher forwards the error to handleError
(the ghost errLog) and get returns undefined, a non-user watcher
rethrows; on every path popTarget and cleanupDeps run.  The deep-mode
traverse call only performs further reactive reads and is represented by
read actions inside the body. -/
def finishGet (wid : Nat) (user : Bool) (ret : JSV) (s : RSys) (r : Option Nat) :
    RSys × Except Nat JSV :=
  match r with
  | none => (cleanupDeps wid (popTarget s), .ok ret)
  | some e =>
    if user then
      (cleanupDeps wid (popTarget { s with errLog := s.errLog ++ [e] }), .ok .undef)
    else
      (cleanupDeps wid (popTarget s), .error e)

/-- Execution of a getter body: reads call depend() on the Dep, a throw
aborts the rest of the body, and a nested evaluation performs the full
Watcher.get protocol (pushTarget, body, catch or rethrow, popTarget,
cleanupDeps) before the outer body continues — an error rethrown by a
non-user nested watcher aborts the outer body as well. -/
def execActs : List Act → RSys → RSys × Option Nat
  | [], s => (s, none)
  | .read d :: rest, s => execActs rest (depend d s)
  | .fail e :: _, s => (s, some e)
  | .nested wid user body ret :: rest, s =>
    let s1 := pushTarget (some wid) s
    let p := execActs body s1
    match finishGet wid user ret p.1 p.2 with
    | (s3, .ok _) => execActs rest s3
    | (s3, .error e) => (s3, some e)

/-- Watcher.get (watcher.js lines 116-146): push self as current
consumer, run the getter body, then the catch and finally blocks. -/
def watcherGet (wid : Nat) (user : Bool) (body : List Act) (ret : JSV)
    (s : RSys) : RSys × Except Nat JSV :=
  let s1 := pushTarget (some wid) s
  let p := execActs body s1
  finishGet wid user ret p.1 p.2

/-- Watcher.run (watcher.js lines 225-254): re-evaluate when active, then
invoke the callback when the value changed, is an object, or deep mode is
set.  The callback is modelled as a ghost log entry carrying (uid, new
value, old value); an error from a non-user getter propagates to the
caller as the second component. -/
def run (wid : Nat) (s : RSys) : RSys × Option Nat :=
  let w := s.watchers wid
  if w.active then
    match watcherGet wid w.user w.getterActs w.getterRet s with
    | (s1, .error e) => (s1, some e)
    | (s1, .ok value) =>
      let w1 := s1.watchers wid
      if !strictEq value w1.value || isObjectM value || w1.deep then
        let s2 := setW wid { w1 with value := value } s1
        ({ s2 with cbLog := s2.cbLog ++ [(wid, value, w1.value)] }, none)
      else (s1, none)
  else (s, none)

/-- Watcher.update (watcher.js lines 202-217): lazy watchers are marked
dirty, sync watchers run immediately, the rest go to the external
scheduler (ghost queued log).  The updateLog ghost trace records every
invocation of update(). -/
def update (wid : Nat) (s : RSys) : RSys × Option Nat :=
  let s0 := { s with updateLog := s.updateLog ++ [wid] }
  let w := s0.watchers wid
  if w.lazyW then (setW wid { w with dirty := true } s0, none)
  else if w.sync then run wid s0
  else ({ s0 with queued := s0.queued ++ [wid] }, none)

/-- The snapshot order used by Dep.notify (part_000 lines 32-41): a copy
of the subscriber list, sorted ascending by watcher id when not in
production and config.async is off. -/
def notifyOrder (s : RSys) (d : Nat) : List Nat :=
  let snapshot := s.subs d
  if !s.production && !s.async then snapshot.insertionSort (· ≤ ·) else snapshot

/-- The notification loop: update each scheduled subscriber in turn; an
exception thrown by an update aborts the remainder. -/
def notifyGo : List Nat → RSys → RSys × Option Nat
  | [], s => (s, none)
  | wid :: rest, s =>
    match update wid s with
    | (s1, none) => notifyGo rest s1
    | (s1, some e) => (s1, some e)

/-- Dep.notify (part_000 lines 32-41). -/
def notify (d : Nat) (s : RSys) : RSys × Option Nat :=
  notifyGo (notifyOrder s d) s

/-- Watcher.teardown (watcher.js lines 281-295): when active, remove self
from the vm watcher list unless the vm is being destroyed, unsubscribe
from every held Dep, and mark inactive. -/
def teardown (wid : Nat) (s : RSys) : RSys :=
  let w := s.watchers wid
  if w.active then
    let s1 :=
      if (s.vms w.vmId).isBeingDestroyed then s
      else setVm w.vmId { s.vms w.vmId with
                          watchers := (s.vms w.vmId).watchers.erase wid } s
    let s2 := w.deps.reverse.foldl (fun acc dep => removeSub dep wid acc) s1
    setW wid { w with active := false } s2
  else s

/-- The steady-state invariant of one watcher between evaluations: both
current-generation buffers are empty, the previous-generation id set
mirrors the deps list, the deps list is duplicate-free, the watcher
appears in a subscriber list exactly when that Dep is held, and never
more than once. -/
def WatcherInv (s : RSys) (wid : Nat) : Prop :=
  (s.watchers wid).newDeps = [] ∧
  (s.watchers wid).newDepIds = [] ∧
  (s.watchers wid).depIds = (s.watchers wid).deps ∧
  (s.watchers wid).deps.Nodup ∧
  (∀ d, wid ∈ s.subs d ↔ d ∈ (s.watchers wid).deps) ∧
  (∀ d, (s.subs d).count wid ≤ 1)

/-- Mid-evaluation characterisation of the state after the watcher wid
has performed the reads of the prefix p of its getter, starting from a
base state s0 whose current-generation buffers were empty: the
current-generation buffers hold each read Dep once, the previous
generation is untouched, and the watcher has been appended (once) to the
subscriber list of every Dep read for the first time that was not a
previous-generation subscription. -/
def MidP (s0 : RSys) (wid : Nat) (p : List Nat) (s : RSys) : Prop :=
  (s.watchers wid).newDeps.Nodup ∧
  (∀ d, d ∈ (s.watchers wid).newDeps ↔ d ∈ p) ∧
  (s.watchers wid).newDepIds = (s.watchers wid).newDeps ∧
  (s.watchers wid).deps = (s0.watchers wid).deps ∧
  (s.watchers wid).depIds = (s0.watchers wid).depIds ∧
  (∀ i, i ≠ wid → s.watchers i = s0.watchers i) ∧
  (∀ d, s.subs d =
    if d ∈ p ∧ d ∉ (s0.watchers wid).depIds then s0.subs d ++ [wid] else s0.subs d) ∧
  s.target = s0.target ∧ s.stack = s0.stack

/-- A fresh watcher record, used by concrete witness states: no
dependencies, active, all flags off. -/
def freshW : WState :=
  ⟨[], [], [], [], true, false, false, false, false, false, .undef, [], .undef, 0⟩

/-- A concrete base system state for witnesses: no subscriptions, fresh
watchers, one vm, empty context stack, development mode, non-batched. -/
def rsys0 : RSys :=
  ⟨fun _ => [], fun _ => freshW, fun _ => ⟨[], false⟩, [], none, false, false, [], [], [], []⟩

/-- A concrete state for the teardown witness: watcher 3 holds Dep 0 and
is subscribed to it; vm 0 lists watcher 3 and is not being destroyed. -/
def c9state : RSys :=
  ⟨fun d => if d = 0 then [3] else [],
   fun i => if i = 3 then { freshW with deps := [0], depIds := [0] } else freshW,
   fun _ => ⟨[3], false⟩, [], none, false, false, [], [], [], []⟩

/-- A concrete state for the claim C3 counterexample: Dep 0 has
subscribers 1 and 2; watcher 1 is synchronous, non-user, and its getter
throws error 7. -/
def c3cex : RSys :=
  ⟨fun d => if d = 0 then [1, 2] else [],
   fun i => if i = 1 then { freshW with sync := true, getterActs := [Act.fail 7] } else freshW,
   fun _ => ⟨[], false⟩, [], none, false, false, [], [], [], []⟩

/-- The C3 counterexample state after update() has logged watcher 1. -/
def c3cexU : RSys := { c3cex with updateLog := c3cex.updateLog ++ [1] }

/-- A concrete state for the claim C3 witness: Dep 0 has subscribers 2
and 1 (registered in that order), both deferred watchers. -/
def c3state : RSys :=
  ⟨fun d => if d = 0 then [2, 1] else [],
   fun _ => freshW, fun _ => ⟨[], false⟩, [], none, false, false, [], [], [], []⟩

/-- A property defined over a pre-existing accessor with a getter and no
setter (the subject of claims C4 and C10). -/
def getterOnlyProp : PropClosure Unit :=
  ⟨JSV.num 5, some (fun _ => JSV.num 0), none, false, false⟩

/-- A plain data property: no pre-existing accessor pair. -/
def plainProp : PropClosure Unit :=
  ⟨JSV.num 5, none, none, false, false⟩

/-- An observed plain object whose own key toString shadows
Object.prototype (the claim C5 counterexample). -/
def c5o : ObjT := ⟨[(Key.str "toString", 1)], [Key.str "toString"], some 0, false⟩

/-- A root-tracked plain object: observed with vmCount 2 (used by the
claim C6 witness). -/
def c6o : ObjT := ⟨[], [], some 2, false⟩

/-! ### Basic lemmas about the primitive operations -/

theorem addSub_stack (d wid : Nat) (s : RSys) : (addSub d wid s).stack = s.stack := rfl

theorem removeSub_stack (d wid : Nat) (s : RSys) : (removeSub d wid s).stack = s.stack := rfl

theorem setW_stack (wid : Nat) (w : WState) (s : RSys) : (setW wid w s).stack = s.stack := rfl

theorem addDep_stack (wid d : Nat) (s : RSys) : (addDep wid d s).stack = s.stack := by
  unfold addDep
  by_cases h1 : d ∈ (s.watchers wid).newDepIds
  · simp [h1]
  · by_cases h2 : d ∈ (s.watchers wid).depIds <;> simp [h1, h2, addSub, setW]

theorem depend_stack (d : Nat) (s : RSys) : (depend d s).stack = s.stack := by
  unfold depend
  cases h : s.target with
  | none => rfl
  | some wid => exact addDep_stack wid d s

theorem addDep_target (wid d : Nat) (s : RSys) : (addDep wid d s).target = s.target := by
  unfold addDep
  by_cases h1 : d ∈ (s.watchers wid).newDepIds
  · simp [h1]
  · by_cases h2 : d ∈ (s.watchers wid).depIds <;> simp [h1, h2, addSub, setW]

theorem depend_target (d : Nat) (s : RSys) : (depend d s).target = s.target := by
  unfold depend
  cases h : s.target with
  | none => exact h
  | some wid => rw [addDep_target]; exact h

theorem foldl_pres {α β : Type} (P : RSys → β) (step : RSys → α → RSys)
    (h : ∀ s d, P (step s d) = P s) :
    ∀ (l : List α) (s : RSys), P (l.foldl step s) = P s := by
  intro l
  induction l with
  | nil => intro s; rfl
  | cons d rest ih => intro s; rw [List.foldl_cons, ih, h]

theorem foldl_ifRemove_pres {β : Type} (P : RSys → β)
    (h : ∀ d wid s, P (removeSub d wid s) = P s) (ids : List Nat) (wid : Nat)
    (l : List Nat) (s : RSys) :
    P (l.foldl (fun acc dep => if dep ∈ ids then acc else removeSub dep wid acc) s) = P s :=
  foldl_pres P _ (fun s1 d => by by_cases hd : d ∈ ids <;> simp [hd, h]) l s

theorem cleanupDeps_stack (wid : Nat) (s : RSys) : (cleanupDeps wid s).stack = s.stack := by
  unfold cleanupDeps
  simp only [setW]
  exact foldl_ifRemove_pres RSys.stack (fun _ _ _ => rfl) _ wid _ s

theorem cleanupDeps_updateLog (wid : Nat) (s : RSys) :
    (cleanupDeps wid s).updateLog = s.updateLog := by
  unfold cleanupDeps
  simp only [setW]
  exact foldl_ifRemove_pres RSys.updateLog (fun _ _ _ => rfl) _ wid _ s

theorem cleanupDeps_errLog (wid : Nat) (s : RSys) :
    (cleanupDeps wid s).errLog = s.errLog := by
  unfold cleanupDeps
  simp only [setW]
  exact foldl_ifRemove_pres RSys.errLog (fun _ _ _ => rfl) _ wid _ s

theorem addDep_updateLog (wid d : Nat) (s : RSys) :
    (addDep wid d s).updateLog = s.updateLog := by
  unfold addDep
  by_cases h1 : d ∈ (s.watchers wid).newDepIds
  · simp [h1]
  · by_cases h2 : d ∈ (s.watchers wid).depIds <;> simp [h1, h2, addSub, setW]

theorem depend_updateLog (d : Nat) (s : RSys) : (depend d s).updateLog = s.updateLog := by
  unfold depend
  cases h : s.target with
  | none => rfl
  | some wid => exact addDep_updateLog wid d s

theorem finishGet_stack (wid : Nat) (user : Bool) (ret : JSV) (s : RSys) (r : Option Nat) :
    (finishGet wid user ret s r).1.stack = s.stack.dropLast := by
  unfold finishGet
  cases r with
  | none => simp [cleanupDeps_stack, popTarget]
  | some e => cases user <;> simp [cleanupDeps_stack, popTarget]

theorem finishGet_updateLog (wid : Nat) (user : Bool) (ret : JSV) (s : RSys) (r : Option Nat) :
    (finishGet wid user ret s r).1.updateLog = s.updateLog := by
  unfold finishGet
  cases r with
  | none => simp [cleanupDeps_updateLog, popTarget]
  | some e => cases user <;> simp [cleanupDeps_updateLog, popTarget]

/-- Frame lemma for getter-body execution: the context stack and the
update trace are untouched by any sequence of reads, failures and nested
evaluations (every nested push is matched by its pop). -/
theorem execActs_frame (acts : List Act) (s : RSys) :
    (execActs acts s).1.stack = s.stack ∧ (execActs acts s).1.updateLog = s.updateLog := by
  induction acts, s using execActs.induct with
  | case1 s => simp [execActs]
  | case2 d rest s ih =>
    rw [execActs]
    exact ⟨by rw [ih.1, depend_stack], by rw [ih.2, depend_updateLog]⟩
  | case3 e tail s => simp [execActs]
  | case4 wid user body ret rest s s1 p s3 a heq ihbody ihrest =>
    have hs1 : s1 = pushTarget (some wid) s := rfl
    have hs3 : s3 = (finishGet wid user ret p.1 p.2).1 := by rw [heq]
    have hstack : s3.stack = s.stack := by
      rw [hs3, finishGet_stack, ihbody.1, hs1]
      simp [pushTarget]
    have hlog : s3.updateLog = s.updateLog := by
      rw [hs3, finishGet_updateLog, ihbody.2, hs1]
      rfl
    rw [execActs]
    rw [heq]
    exact ⟨by rw [ihrest.1, hstack], by rw [ihrest.2, hlog]⟩
  | case5 wid user body ret rest s s1 p s3 e heq ihbody =>
    have hs1 : s1 = pushTarget (some wid) s := rfl
    have hs3 : s3 = (finishGet wid user ret p.1 p.2).1 := by rw [heq]
    have hstack : s3.stack = s.stack := by
      rw [hs3, finishGet_stack, ihbody.1, hs1]
      simp [pushTarget]
    have hlog : s3.updateLog = s.updateLog := by
      rw [hs3, finishGet_updateLog, ihbody.2, hs1]
      rfl
    rw [execActs]
    rw [heq]
    exact ⟨hstack, hlog⟩

/-! ### The addDep fold: building the current generation -/

theorem MidP_addDep (s0 : RSys) (wid : Nat) (p : List Nat) (s : RSys) (d : Nat)
    (h : MidP s0 wid p s) : MidP s0 wid (p ++ [d]) (addDep wid d s) := by
  obtain ⟨hnd, hmem, hids, hdeps, hdepIds, hoth, hsubs, htgt, hstk⟩ := h
  have happiff : ∀ d' : Nat, d' ≠ d → (d' ∈ p ++ [d] ↔ d' ∈ p) := by
    intro d' hd'
    simp [List.mem_append, hd']
  unfold addDep
  by_cases hin : d ∈ (s.watchers wid).newDepIds
  · rw [if_pos hin]
    have hdp : d ∈ p := (hmem d).mp (hids ▸ hin)
    refine ⟨hnd, ?_, hids, hdeps, hdepIds, hoth, ?_, htgt, hstk⟩
    · intro d'
      rw [hmem d']
      by_cases hd' : d' = d
      · subst hd'; simp [hdp]
      · rw [happiff d' hd']
    · intro d'
      rw [hsubs d']
      by_cases hd' : d' = d
      · subst hd'
        have h1 : d' ∈ p ++ [d'] := List.mem_append_right _ (List.mem_singleton.mpr rfl)
        by_cases hdep : d' ∈ (s0.watchers wid).depIds <;> simp [hdp, h1, hdep]
      · rw [if_congr (and_congr_left' (happiff d' hd')) rfl rfl]
  · rw [if_neg hin]
    have hdp : d ∉ p := fun hc => hin (hids ▸ ((hmem d).mpr hc))
    have hnd2 : ((s.watchers wid).newDeps ++ [d]).Nodup := by
      rw [List.nodup_append]
      refine ⟨hnd, List.nodup_singleton d, ?_⟩
      intro a ha hb
      rw [List.mem_singleton] at hb
      subst hb
      exact hdp ((hmem a).mp ha)
    by_cases hdep : d ∈ (s.watchers wid).depIds
    · rw [if_pos hdep]
      have hdep0 : d ∈ (s0.watchers wid).depIds := hdepIds ▸ hdep
      refine ⟨?_, ?_, ?_, ?_, ?_, ?_, ?_, ?_, ?_⟩
      · simpa [setW] using hnd2
      · intro d'
        simp only [setW, if_pos rfl]
        show d' ∈ (s.watchers wid).newDeps ++ [d] ↔ d' ∈ p ++ [d]
        by_cases hd' : d' = d
        · subst hd'; simp
        · rw [happiff d' hd']
          simp only [List.mem_append, List.mem_singleton, hd', or_false]
          exact hmem d'
      · simp [setW, hids]
      · simp [setW, hdeps]
      · simp [setW, hdepIds]
      · intro i hi
        simp only [setW]
        rw [if_neg hi]
        exact hoth i hi
      · intro d'
        show s.subs d' = _
        rw [hsubs d']
        by_cases hd' : d' = d
        · subst hd'
          have h1 : d' ∈ p ++ [d'] := List.mem_append_right _ (List.mem_singleton.mpr rfl)
          simp [hdp, h1, hdep0]
        · rw [if_congr (and_congr_left' (happiff d' hd')) rfl rfl]
      · simpa [setW] using htgt
      · simpa [setW] using hstk
    · rw [if_neg hdep]
      have hdep0 : d ∉ (s0.watchers wid).depIds := fun hc => hdep (hdepIds ▸ hc)
      refine ⟨?_, ?_, ?_, ?_, ?_, ?_, ?_, ?_, ?_⟩
      · simpa [addSub, setW] using hnd2
      · intro d'
        simp only [addSub, setW, if_pos rfl]
        show d' ∈ (s.watchers wid).newDeps ++ [d] ↔ d' ∈ p ++ [d]
        by_cases hd' : d' = d
        · subst hd'; simp
        · rw [happiff d' hd']
          simp only [List.mem_append, List.mem_singleton, hd', or_false]
          exact hmem d'
      · simp [addSub, setW, hids]
      · simp [addSub, setW, hdeps]
      · simp [addSub, setW, hdepIds]
      · intro i hi
        simp only [addSub, setW]
        rw [if_neg hi]
        exact hoth i hi
      · intro d'
        simp only [addSub, setW]
        by_cases hd' : d' = d
        · subst hd'
          rw [if_pos rfl, hsubs d']
          have h1 : d' ∈ p ++ [d'] := List.mem_append_right _ (List.mem_singleton.mpr rfl)
          simp [hdp, h1, hdep0]
        · rw [if_neg hd', hsubs d']
          rw [if_congr (and_congr_left' (happiff d' hd')) rfl rfl]
      · simpa [addSub, setW] using htgt
      · simpa [addSub, setW] using hstk

theorem MidP_fold (s0 : RSys) (wid : Nat) :
    ∀ (rs : List Nat) (p : List Nat) (s : RSys), MidP s0 wid p s →
      MidP s0 wid (p ++ rs) (rs.foldl (fun acc d => addDep wid d acc) s) := by
  intro rs
  induction rs with
  | nil => intro p s h; simpa using h
  | cons r rest ih =>
    intro p s h
    rw [List.foldl_cons]
    have h1 := MidP_addDep s0 wid p s r h
    have h2 := ih (p ++ [r]) (addDep wid r s) h1
    simpa using h2

theorem MidP_init (s0 : RSys) (wid : Nat)
    (h1 : (s0.watchers wid).newDeps = []) (h2 : (s0.watchers wid).newDepIds = []) :
    MidP s0 wid [] s0 := by
  refine ⟨by rw [h1]; exact List.nodup_nil, ?_, by rw [h1, h2], rfl, rfl,
    fun i _ => rfl, ?_, rfl, rfl⟩
  · intro d; rw [h1]
  · intro d; simp

/-! ### Executing a body of plain reads -/

theorem exec_reads (reads : List Nat) : ∀ s : RSys,
    execActs (reads.map Act.read) s = (reads.foldl (fun acc d => depend d acc) s, none) := by
  induction reads with
  | nil => intro s; simp [execActs]
  | cons d rest ih =>
    intro s
    rw [List.map_cons, execActs, List.foldl_cons]
    exact ih (depend d s)

theorem dependFold_eq (wid : Nat) (reads : List Nat) : ∀ s : RSys, s.target = some wid →
    reads.foldl (fun acc d => depend d acc) s = reads.foldl (fun acc d => addDep wid d acc) s := by
  induction reads with
  | nil => intro s _; rfl
  | cons r rest ih =>
    intro s h
    rw [List.foldl_cons, List.foldl_cons]
    have hd : depend r s = addDep wid r s := by unfold depend; rw [h]
    rw [hd]
    exact ih _ (by rw [addDep_target]; exact h)

/-! ### The removeSub folds of cleanupDeps and teardown -/

theorem foldl_ifRemove_subs (ids : List Nat) (wid : Nat) :
    ∀ (l : List Nat), l.Nodup → ∀ (s : RSys) (d : Nat),
      (l.foldl (fun acc dep => if dep ∈ ids then acc else removeSub dep wid acc) s).subs d =
        if d ∈ l ∧ d ∉ ids then (s.subs d).erase wid else s.subs d := by
  intro l
  induction l with
  | nil => intro _ s d; simp
  | cons d0 rest ih =>
    intro hnd s d
    have hnd0 : d0 ∉ rest := (List.nodup_cons.mp hnd).1
    have hndr : rest.Nodup := (List.nodup_cons.mp hnd).2
    rw [List.foldl_cons]
    by_cases h0 : d0 ∈ ids
    · rw [if_pos h0, ih hndr s d]
      by_cases hd : d = d0
      · subst hd
        rw [if_neg (fun hc => hc.2 h0), if_neg (fun hc => hc.2 h0)]
      · have hiff : d ∈ d0 :: rest ↔ d ∈ rest := by simp [hd]
        rw [if_congr (and_congr_left' hiff.symm) rfl rfl]
    · rw [if_neg h0, ih hndr _ d]
      by_cases hd : d = d0
      · subst hd
        have hs1 : (removeSub d wid s).subs d = (s.subs d).erase wid := by simp [removeSub]
        rw [if_neg (fun hc => hnd0 hc.1), hs1,
          if_pos (⟨List.mem_cons_self d rest, h0⟩ : d ∈ d :: rest ∧ d ∉ ids)]
      · have hs1 : (removeSub d0 wid s).subs d = s.subs d := by simp [removeSub, hd]
        rw [hs1]
        have hiff : d ∈ d0 :: rest ↔ d ∈ rest := by simp [hd]
        rw [if_congr (and_congr_left' hiff.symm) rfl rfl]

theorem foldl_remove_subs (wid : Nat) :
    ∀ (l : List Nat), l.Nodup → ∀ (s : RSys) (d : Nat),
      (l.foldl (fun acc dep => removeSub dep wid acc) s).subs d =
        if d ∈ l then (s.subs d).erase wid else s.subs d := by
  intro l
  induction l with
  | nil => intro _ s d; simp
  | cons d0 rest ih =>
    intro hnd s d
    have hnd0 : d0 ∉ rest := (List.nodup_cons.mp hnd).1
    have hndr : rest.Nodup := (List.nodup_cons.mp hnd).2
    rw [List.foldl_cons, ih hndr _ d]
    by_cases hd : d = d0
    · subst hd
      have hs1 : (removeSub d wid s).subs d = (s.subs d).erase wid := by simp [removeSub]
      rw [if_neg hnd0, hs1, if_pos (List.mem_cons_self d rest)]
    · have hs1 : (removeSub d0 wid s).subs d = s.subs d := by simp [removeSub, hd]
      rw [hs1]
      have hiff : d ∈ d0 :: rest ↔ d ∈ rest := by simp [hd]
      rw [if_congr hiff.symm rfl rfl]

theorem foldl_ifRemove_watchers (ids : List Nat) (wid : Nat) (l : List Nat) (s : RSys) :
    (l.foldl (fun acc dep => if dep ∈ ids then acc else removeSub dep wid acc) s).watchers
      = s.watchers :=
  foldl_pres RSys.watchers _ (fun s1 d => by by_cases hd : d ∈ ids <;> simp [hd, removeSub]) l s

theorem foldl_remove_watchers (wid : Nat) (l : List Nat) (s : RSys) :
    (l.foldl (fun acc dep => removeSub dep wid acc) s).watchers = s.watchers :=
  foldl_pres RSys.watchers (fun acc dep => removeSub dep wid acc) (fun s1 d => rfl) l s

theorem foldl_remove_vms (wid : Nat) (l : List Nat) (s : RSys) :
    (l.foldl (fun acc dep => removeSub dep wid acc) s).vms = s.vms :=
  foldl_pres RSys.vms (fun acc dep => removeSub dep wid acc) (fun s1 d => rfl) l s

/-! ### Projections of cleanupDeps and popTarget -/

theorem cleanupDeps_watchers_self (wid : Nat) (s : RSys) :
    (cleanupDeps wid s).watchers wid =
      { s.watchers wid with depIds := (s.watchers wid).newDepIds, newDepIds := [],
                            deps := (s.watchers wid).newDeps, newDeps := [] } := by
  unfold cleanupDeps
  simp [setW]

theorem cleanupDeps_watchers_other (wid i : Nat) (s : RSys) (h : i ≠ wid) :
    (cleanupDeps wid s).watchers i = s.watchers i := by
  unfold cleanupDeps
  simp only [setW]
  rw [if_neg h]
  exact congrFun (foldl_ifRemove_watchers _ wid _ s) i

theorem cleanupDeps_subs (wid : Nat) (s : RSys)
    (hnd : (s.watchers wid).deps.Nodup) (d : Nat) :
    (cleanupDeps wid s).subs d =
      if d ∈ (s.watchers wid).deps ∧ d ∉ (s.watchers wid).newDepIds then
        (s.subs d).erase wid
      else s.subs d := by
  unfold cleanupDeps
  simp only [setW]
  rw [foldl_ifRemove_subs _ wid _ (List.nodup_reverse.mpr hnd) s d]
  rw [if_congr (and_congr_left' (List.mem_reverse)) rfl rfl]

theorem popTarget_subs (s : RSys) (d : Nat) : (popTarget s).subs d = s.subs d := rfl

theorem popTarget_watchers (s : RSys) : (popTarget s).watchers = s.watchers := rfl

theorem notifyOrder_not_mem (s : RSys) (d wid : Nat) (h : wid ∉ s.subs d) :
    wid ∉ notifyOrder s d := by
  unfold notifyOrder
  split_ifs with hc
  · intro hm
    exact h (((List.perm_insertionSort (· ≤ ·) (s.subs d))).mem_iff.mp hm)
  · exact h

theorem cleanupDeps_target (wid : Nat) (s : RSys) : (cleanupDeps wid s).target = s.target := by
  unfold cleanupDeps
  simp only [setW]
  exact foldl_ifRemove_pres RSys.target (fun _ _ _ => rfl) _ wid _ s

/-! ### Master characterisation of a read-only evaluation

A completed Watcher.get whose getter performed exactly the reactive reads
of the list reads (in order, duplicates allowed): the state afterwards is
characterised field by field. -/

theorem watcherGet_reads_spec (wid : Nat) (reads : List Nat) (user : Bool) (ret : JSV)
    (s s' : RSys)
    (hs' : s' = (watcherGet wid user (reads.map Act.read) ret s).1)
    (hnew : (s.watchers wid).newDeps = [])
    (hnewIds : (s.watchers wid).newDepIds = [])
    (hdnd : (s.watchers wid).deps.Nodup) :
    (watcherGet wid user (reads.map Act.read) ret s).2 = Except.ok ret ∧
    (s'.watchers wid).deps.Nodup ∧
    (∀ d, d ∈ (s'.watchers wid).deps ↔ d ∈ reads) ∧
    (s'.watchers wid).depIds = (s'.watchers wid).deps ∧
    (s'.watchers wid).newDeps = [] ∧
    (s'.watchers wid).newDepIds = [] ∧
    (∀ i, i ≠ wid → s'.watchers i = s.watchers i) ∧
    (∀ d, s'.subs d =
      if d ∈ (s.watchers wid).deps ∧ d ∉ reads then (s.subs d).erase wid
      else if d ∈ reads ∧ d ∉ (s.watchers wid).depIds then s.subs d ++ [wid]
      else s.subs d) ∧
    s'.stack = s.stack ∧ s'.target = stackTarget s.stack := by
  have hM0 : MidP (pushTarget (some wid) s) wid [] (pushTarget (some wid) s) :=
    MidP_init _ wid hnew hnewIds
  have hM1 := MidP_fold (pushTarget (some wid) s) wid reads [] (pushTarget (some wid) s) hM0
  rw [List.nil_append] at hM1
  have hexec := exec_reads reads (pushTarget (some wid) s)
  have hfold := dependFold_eq wid reads (pushTarget (some wid) s) rfl
  set s2 := reads.foldl (fun acc d => addDep wid d acc) (pushTarget (some wid) s) with hs2
  rw [hfold] at hexec
  obtain ⟨hnd2, hmem2, hids2, hdeps2, hdepIds2, hoth2, hsubs2, htgt2, hstk2⟩ := hM1
  have hw : watcherGet wid user (reads.map Act.read) ret s =
      (cleanupDeps wid (popTarget s2), Except.ok ret) := by
    show finishGet wid user ret (execActs (reads.map Act.read) (pushTarget (some wid) s)).1
      (execActs (reads.map Act.read) (pushTarget (some wid) s)).2 = _
    rw [hexec]
    rfl
  have hs'2 : s' = cleanupDeps wid (popTarget s2) := by rw [hs', hw]
  have hpw : (popTarget s2).watchers = s2.watchers := rfl
  have hdeps0 : (s2.watchers wid).deps = (s.watchers wid).deps := hdeps2
  have hdepIds0 : (s2.watchers wid).depIds = (s.watchers wid).depIds := hdepIds2
  have hdnd2 : ((popTarget s2).watchers wid).deps.Nodup := by
    rw [hpw, hdeps0]; exact hdnd
  have hstk2' : s2.stack = s.stack ++ [some wid] := hstk2
  refine ⟨by rw [hw], ?_, ?_, ?_, ?_, ?_, ?_, ?_, ?_, ?_⟩
  · rw [hs'2, cleanupDeps_watchers_self, hpw]
    exact hnd2
  · intro d
    rw [hs'2, cleanupDeps_watchers_self, hpw]
    show d ∈ (s2.watchers wid).newDeps ↔ d ∈ reads
    exact hmem2 d
  · rw [hs'2, cleanupDeps_watchers_self, hpw]
    show (s2.watchers wid).newDepIds = (s2.watchers wid).newDeps
    exact hids2
  · rw [hs'2, cleanupDeps_watchers_self]
  · rw [hs'2, cleanupDeps_watchers_self]
  · intro i hi
    rw [hs'2, cleanupDeps_watchers_other wid i _ hi, hpw]
    exact hoth2 i hi
  · intro d
    rw [hs'2, cleanupDeps_subs wid _ hdnd2 d]
    rw [hpw, hdeps0, hids2]
    have hsp : (popTarget s2).subs d = s2.subs d := rfl
    rw [hsp, hsubs2 d]
    rw [show ((pushTarget (some wid) s).watchers wid).depIds = (s.watchers wid).depIds from rfl]
    rw [show (pushTarget (some wid) s).subs = s.subs from rfl]
    by_cases hr : d ∈ reads
    · have hnotc : ¬(d ∈ (s.watchers wid).deps ∧ d ∉ (s2.watchers wid).newDeps) := by
        intro hc
        exact hc.2 ((hmem2 d).mpr hr)
      have h2 : ¬(d ∈ (s.watchers wid).deps ∧ d ∉ reads) := fun hc => hc.2 hr
      rw [if_neg hnotc]
      conv_rhs => rw [if_neg h2]
    · have hinner : (if d ∈ reads ∧ d ∉ (s.watchers wid).depIds then s.subs d ++ [wid]
          else s.subs d) = s.subs d := if_neg (fun hc => hr hc.1)
      rw [hinner]
      by_cases hin0 : d ∈ (s.watchers wid).deps
      · have h1 : d ∈ (s.watchers wid).deps ∧ d ∉ (s2.watchers wid).newDeps :=
          ⟨hin0, fun hc => hr ((hmem2 d).mp hc)⟩
        have h2 : d ∈ (s.watchers wid).deps ∧ d ∉ reads := ⟨hin0, hr⟩
        rw [if_pos h1, if_pos h2]
      · have h1 : ¬(d ∈ (s.watchers wid).deps ∧ d ∉ (s2.watchers wid).newDeps) :=
          fun hc => hin0 hc.1
        have h2 : ¬(d ∈ (s.watchers wid).deps ∧ d ∉ reads) := fun hc => hin0 hc.1
        rw [if_neg h1, if_neg h2]
  · rw [hs'2, cleanupDeps_stack]
    show s2.stack.dropLast = s.stack
    rw [hstk2']
    simp
  · rw [hs'2, cleanupDeps_target]
    show stackTarget s2.stack.dropLast = stackTarget s.stack
    rw [hstk2']
    simp

/-! ### Consequences under the steady-state invariant -/

theorem not_mem_erase_self_of_count_le (l : List Nat) (a : Nat) (h : l.count a ≤ 1) :
    a ∉ l.erase a := by
  intro hm
  have h1 := List.count_erase_self a l
  have h2 : 0 < (l.erase a).count a := List.count_pos_iff.mpr hm
  omega

/-- Under the steady-state invariant, a completed read-only evaluation
leaves the watcher subscribed to exactly the Deps read, re-establishes
the invariant, and touches no other watcher entry of any subscriber
list. -/
theorem watcherGet_inv (wid : Nat) (reads : List Nat) (user : Bool) (ret : JSV)
    (s s' : RSys)
    (hs' : s' = (watcherGet wid user (reads.map Act.read) ret s).1)
    (h : WatcherInv s wid) :
    WatcherInv s' wid ∧
    (∀ d, d ∈ (s'.watchers wid).deps ↔ d ∈ reads) ∧
    (∀ d, wid ∈ s'.subs d ↔ d ∈ reads) ∧
    (∀ d (w' : Nat), w' ≠ wid → (s'.subs d).count w' = (s.subs d).count w') ∧
    (watcherGet wid user (reads.map Act.read) ret s).2 = Except.ok ret ∧
    s'.stack = s.stack := by
  obtain ⟨hnew, hnewIds, hdId, hdnd, hcoh, hcount⟩ := h
  obtain ⟨hok, hnd', hmem', hdId', hnew', hnewIds', hoth', hsubs', hstk', htgt'⟩ :=
    watcherGet_reads_spec wid reads user ret s s' hs' hnew hnewIds hdnd
  have hsubsmem : ∀ d, wid ∈ s'.subs d ↔ d ∈ reads := by
    intro d
    rw [hsubs' d]
    by_cases hr : d ∈ reads
    · have hA : ¬(d ∈ (s.watchers wid).deps ∧ d ∉ reads) := fun hc => hc.2 hr
      rw [if_neg hA]
      by_cases hdep : d ∈ (s.watchers wid).depIds
      · rw [if_neg (fun hc => hc.2 hdep)]
        have : d ∈ (s.watchers wid).deps := hdId ▸ hdep
        simp [hr, (hcoh d).mpr this]
      · rw [if_pos ⟨hr, hdep⟩]
        simp [hr]
    · by_cases hin0 : d ∈ (s.watchers wid).deps
      · rw [if_pos ⟨hin0, hr⟩]
        simp only [hr, iff_false]
        exact not_mem_erase_self_of_count_le _ wid (hcount d)
      · rw [if_neg (fun hc => hin0 hc.1)]
        rw [if_neg (fun hc => hr hc.1)]
        simp only [hr, iff_false]
        intro hm
        exact hin0 ((hcoh d).mp hm)
  have hcount' : ∀ d, (s'.subs d).count wid ≤ 1 := by
    intro d
    rw [hsubs' d]
    by_cases hA : d ∈ (s.watchers wid).deps ∧ d ∉ reads
    · rw [if_pos hA]
      have h1 := List.count_erase_self wid (s.subs d)
      have h2 := hcount d
      omega
    · rw [if_neg hA]
      by_cases hB : d ∈ reads ∧ d ∉ (s.watchers wid).depIds
      · rw [if_pos hB]
        have hwn : wid ∉ s.subs d := by
          intro hm
          exact hB.2 (hdId ▸ ((hcoh d).mp hm))
        have h0 : (s.subs d).count wid = 0 := List.count_eq_zero.mpr hwn
        rw [List.count_append, h0]
        simp
      · rw [if_neg hB]
        exact hcount d
  refine ⟨⟨hnew', hnewIds', hdId', hnd', ?_, hcount'⟩, hmem', hsubsmem, ?_, hok, hstk'⟩
  · intro d
    rw [hsubsmem d, hmem' d]
  · intro d w' hw'
    rw [hsubs' d]
    by_cases hA : d ∈ (s.watchers wid).deps ∧ d ∉ reads
    · rw [if_pos hA]
      exact List.count_erase_of_ne hw' (s.subs d)
    · rw [if_neg hA]
      by_cases hB : d ∈ reads ∧ d ∉ (s.watchers wid).depIds
      · rw [if_pos hB, List.count_append]
        simp [hw']
      · rw [if_neg hB]

/-! ### Claim C1 -/

/-- C1: for every watcher and every completed evaluation, the deps list
afterwards holds exactly (and once each) the Deps whose depend() fired
during that evaluation; every Dep read is subscribed to, every Dep of the
previous generation that was not read has been unsubscribed, and a
notify() on a Dep not read in the last evaluation never schedules the
watcher for update, hence never invokes its callback. -/
theorem c1_deps_mirror_reads (wid : Nat) (reads : List Nat) (user : Bool) (ret : JSV)
    (s : RSys) (h : WatcherInv s wid) :
    ((watcherGet wid user (reads.map Act.read) ret s).1.watchers wid).deps.Nodup ∧
    (∀ d, d ∈ ((watcherGet wid user (reads.map Act.read) ret s).1.watchers wid).deps ↔
      d ∈ reads) ∧
    (∀ d, wid ∈ (watcherGet wid user (reads.map Act.read) ret s).1.subs d ↔ d ∈ reads) ∧
    (∀ d, d ∉ reads →
      wid ∉ notifyOrder ((watcherGet wid user (reads.map Act.read) ret s).1) d) := by
  obtain ⟨hinv, hmem, hsubs, hoc, hok, hstk⟩ := watcherGet_inv wid reads user ret s _ rfl h
  refine ⟨hinv.2.2.2.1, hmem, hsubs, ?_⟩
  intro d hd
  exact notifyOrder_not_mem _ d wid (fun hm => hd ((hsubs d).mp hm))

/-- Witness for C1 at a concrete input: a fresh watcher 5 evaluating a
getter that reads Deps 0, 1 and 0 again. -/
theorem c1_witness :
    WatcherInv rsys0 5 ∧
    (((watcherGet 5 false ([0, 1, 0].map Act.read) .undef rsys0).1.watchers 5).deps.Nodup ∧
     (∀ d, d ∈ ((watcherGet 5 false ([0, 1, 0].map Act.read) .undef rsys0).1.watchers 5).deps ↔
       d ∈ [0, 1, 0]) ∧
     (∀ d, 5 ∈ (watcherGet 5 false ([0, 1, 0].map Act.read) .undef rsys0).1.subs d ↔
       d ∈ [0, 1, 0]) ∧
     (∀ d, d ∉ [0, 1, 0] →
       5 ∉ notifyOrder ((watcherGet 5 false ([0, 1, 0].map Act.read) .undef rsys0).1) d)) := by
  have hInv : WatcherInv rsys0 5 := by
    refine ⟨rfl, rfl, rfl, List.nodup_nil, ?_, ?_⟩
    · intro d
      simp [rsys0, freshW]
    · intro d
      simp [rsys0]
  exact ⟨hInv, c1_deps_mirror_reads 5 [0, 1, 0] false .undef rsys0 hInv⟩

/-! ### Claim C2 -/

/-- C2: a subscriber list holds a given watcher at most once; an
evaluation changes no other watcher entry of any subscriber list, and
re-evaluating with the same reads and no intervening writes leaves every
subscriber list unchanged. -/
theorem c2_no_duplicate_subs (wid : Nat) (reads : List Nat) (user : Bool) (ret : JSV)
    (s : RSys) (h : WatcherInv s wid) :
    (∀ d, ((watcherGet wid user (reads.map Act.read) ret s).1.subs d).count wid ≤ 1) ∧
    (∀ d (w' : Nat), w' ≠ wid →
      ((watcherGet wid user (reads.map Act.read) ret s).1.subs d).count w' =
        (s.subs d).count w') ∧
    (∀ d, (watcherGet wid user (reads.map Act.read) ret
        ((watcherGet wid user (reads.map Act.read) ret s).1)).1.subs d =
      (watcherGet wid user (reads.map Act.read) ret s).1.subs d) := by
  obtain ⟨hinv, hmem, hsubs, hoc, hok, hstk⟩ := watcherGet_inv wid reads user ret s _ rfl h
  refine ⟨hinv.2.2.2.2.2, hoc, ?_⟩
  obtain ⟨hok2, hnd2, hmem2, hdId2, hnew2, hnewIds2, hoth2, hsubs2, hstk2, htgt2⟩ :=
    watcherGet_reads_spec wid reads user ret
      ((watcherGet wid user (reads.map Act.read) ret s).1) _ rfl
      hinv.1 hinv.2.1 hinv.2.2.2.1
  intro d
  rw [hsubs2 d]
  have hA : ¬(d ∈ (((watcherGet wid user (reads.map Act.read) ret s).1).watchers wid).deps ∧
      d ∉ reads) := fun hc => hc.2 ((hmem d).mp hc.1)
  have hB : ¬(d ∈ reads ∧
      d ∉ (((watcherGet wid user (reads.map Act.read) ret s).1).watchers wid).depIds) := by
    intro hc
    apply hc.2
    rw [hinv.2.2.1]
    exact (hmem d).mpr hc.1
  rw [if_neg hA, if_neg hB]

/-- Witness for C2 at a concrete input: a fresh watcher 7 evaluating a
getter that reads Deps 2 and 3. -/
theorem c2_witness :
    WatcherInv rsys0 7 ∧
    ((∀ d, ((watcherGet 7 false ([2, 3].map Act.read) .undef rsys0).1.subs d).count 7 ≤ 1) ∧
     (∀ d (w' : Nat), w' ≠ 7 →
       ((watcherGet 7 false ([2, 3].map Act.read) .undef rsys0).1.subs d).count w' =
         (rsys0.subs d).count w') ∧
     (∀ d, (watcherGet 7 false ([2, 3].map Act.read) .undef
         ((watcherGet 7 false ([2, 3].map Act.read) .undef rsys0).1)).1.subs d =
       (watcherGet 7 false ([2, 3].map Act.read) .undef rsys0).1.subs d)) := by
  have hInv : WatcherInv rsys0 7 := by
    refine ⟨rfl, rfl, rfl, List.nodup_nil, ?_, ?_⟩
    · intro d
      simp [rsys0, freshW]
    · intro d
      simp [rsys0]
  exact ⟨hInv, c2_no_duplicate_subs 7 [2, 3] false .undef rsys0 hInv⟩

/-! ### Claims C7 and C8: the catch and finally protocol of Watcher.get -/

theorem finishGet_target (wid : Nat) (user : Bool) (ret : JSV) (sX : RSys) (r : Option Nat) :
    (finishGet wid user ret sX r).1.target = stackTarget sX.stack.dropLast := by
  unfold finishGet
  cases r with
  | none => simp [cleanupDeps_target, popTarget]
  | some e => cases user <;> simp [cleanupDeps_target, popTarget]

theorem finishGet_watchers_self (wid : Nat) (user : Bool) (ret : JSV) (sX : RSys)
    (r : Option Nat) :
    (finishGet wid user ret sX r).1.watchers wid =
      { sX.watchers wid with depIds := (sX.watchers wid).newDepIds, newDepIds := [],
                             deps := (sX.watchers wid).newDeps, newDeps := [] } := by
  cases r with
  | none =>
    show (cleanupDeps wid (popTarget sX)).watchers wid = _
    rw [cleanupDeps_watchers_self]
    rfl
  | some e =>
    cases user with
    | true =>
      show (cleanupDeps wid
        (popTarget { sX with errLog := sX.errLog ++ [e] })).watchers wid = _
      rw [cleanupDeps_watchers_self]
      rfl
    | false =>
      show (cleanupDeps wid (popTarget sX)).watchers wid = _
      rw [cleanupDeps_watchers_self]
      rfl

/-- C8: every call to Watcher.get, nested calls and throwing getters
included, restores the context stack and the Dep.target variable to their
values before the call (the pushTarget on entry is matched by exactly one
popTarget on every exit path). -/
theorem c8_target_balanced (wid : Nat) (user : Bool) (body : List Act) (ret : JSV)
    (s : RSys) (h : s.target = stackTarget s.stack) :
    (watcherGet wid user body ret s).1.stack = s.stack ∧
    (watcherGet wid user body ret s).1.target = s.target := by
  have hex := execActs_frame body (pushTarget (some wid) s)
  have hw : watcherGet wid user body ret s =
      finishGet wid user ret (execActs body (pushTarget (some wid) s)).1
        (execActs body (pushTarget (some wid) s)).2 := rfl
  constructor
  · rw [hw, finishGet_stack, hex.1]
    simp [pushTarget]
  · rw [hw, finishGet_target, hex.1]
    rw [show (pushTarget (some wid) s).stack = s.stack ++ [some wid] from rfl]
    rw [List.dropLast_concat, h]

/-- Witness for C8 at a concrete input: watcher 1 runs a getter that
reads Dep 0, re-entrantly evaluates user watcher 2 whose body throws
error 9, then reads Dep 0 again. -/
theorem c8_witness :
    rsys0.target = stackTarget rsys0.stack ∧
    ((watcherGet 1 false
        [Act.read 0, Act.nested 2 true [Act.read 1, Act.fail 9] JSV.null, Act.read 0]
        JSV.undef rsys0).1.stack = rsys0.stack ∧
     (watcherGet 1 false
        [Act.read 0, Act.nested 2 true [Act.read 1, Act.fail 9] JSV.null, Act.read 0]
        JSV.undef rsys0).1.target = rsys0.target) :=
  ⟨rfl, c8_target_balanced 1 false
    [Act.read 0, Act.nested 2 true [Act.read 1, Act.fail 9] JSV.null, Act.read 0]
    JSV.undef rsys0 rfl⟩

/-- C7: when the getter body of a Watcher.get throws error e, a user
watcher forwards e to handleError and get returns normally (with the
undefined value), while a non-user watcher rethrows e; on both paths the
popTarget (stack restoration) and the cleanupDeps reconciliation (current
generation promoted, buffers cleared) still execute. -/
theorem c7_error_routing (wid : Nat) (user : Bool) (body : List Act) (ret : JSV)
    (s : RSys) (e : Nat)
    (hfail : (execActs body (pushTarget (some wid) s)).2 = some e) :
    (user = true →
      (watcherGet wid user body ret s).2 = Except.ok JSV.undef ∧
      (watcherGet wid user body ret s).1.errLog =
        (execActs body (pushTarget (some wid) s)).1.errLog ++ [e]) ∧
    (user = false →
      (watcherGet wid user body ret s).2 = Except.error e ∧
      (watcherGet wid user body ret s).1.errLog =
        (execActs body (pushTarget (some wid) s)).1.errLog) ∧
    (watcherGet wid user body ret s).1.stack = s.stack ∧
    ((watcherGet wid user body ret s).1.watchers wid).newDepIds = [] ∧
    ((watcherGet wid user body ret s).1.watchers wid).newDeps = [] ∧
    ((watcherGet wid user body ret s).1.watchers wid).deps =
      ((execActs body (pushTarget (some wid) s)).1.watchers wid).newDeps := by
  have hex := execActs_frame body (pushTarget (some wid) s)
  have hw : watcherGet wid user body ret s =
      finishGet wid user ret (execActs body (pushTarget (some wid) s)).1
        (execActs body (pushTarget (some wid) s)).2 := rfl
  rw [hw, hfail]
  refine ⟨?_, ?_, ?_, ?_, ?_, ?_⟩
  · intro hu
    subst hu
    rw [show finishGet wid true ret (execActs body (pushTarget (some wid) s)).1 (some e) =
        (cleanupDeps wid (popTarget { (execActs body (pushTarget (some wid) s)).1 with
          errLog := (execActs body (pushTarget (some wid) s)).1.errLog ++ [e] }),
         Except.ok JSV.undef) from rfl]
    exact ⟨rfl, by rw [cleanupDeps_errLog]; rfl⟩
  · intro hu
    subst hu
    rw [show finishGet wid false ret (execActs body (pushTarget (some wid) s)).1 (some e) =
        (cleanupDeps wid (popTarget (execActs body (pushTarget (some wid) s)).1),
         Except.error e) from rfl]
    exact ⟨rfl, by rw [cleanupDeps_errLog]; rfl⟩
  · rw [finishGet_stack, hex.1]
    simp [pushTarget]
  · rw [finishGet_watchers_self]
  · rw [finishGet_watchers_self]
  · rw [finishGet_watchers_self]

/-- Witness for C7 at a concrete input: user watcher 4 whose getter reads
Dep 0 and then throws error 3. -/
theorem c7_witness :
    (execActs [Act.read 0, Act.fail 3] (pushTarget (some 4) rsys0)).2 = some 3 ∧
    ((true = true →
      (watcherGet 4 true [Act.read 0, Act.fail 3] JSV.undef rsys0).2 = Except.ok JSV.undef ∧
      (watcherGet 4 true [Act.read 0, Act.fail 3] JSV.undef rsys0).1.errLog =
        (execActs [Act.read 0, Act.fail 3] (pushTarget (some 4) rsys0)).1.errLog ++ [3]) ∧
     (true = false →
      (watcherGet 4 true [Act.read 0, Act.fail 3] JSV.undef rsys0).2 = Except.error 3 ∧
      (watcherGet 4 true [Act.read 0, Act.fail 3] JSV.undef rsys0).1.errLog =
        (execActs [Act.read 0, Act.fail 3] (pushTarget (some 4) rsys0)).1.errLog) ∧
     (watcherGet 4 true [Act.read 0, Act.fail 3] JSV.undef rsys0).1.stack = rsys0.stack ∧
     ((watcherGet 4 true [Act.read 0, Act.fail 3] JSV.undef rsys0).1.watchers 4).newDepIds
       = [] ∧
     ((watcherGet 4 true [Act.read 0, Act.fail 3] JSV.undef rsys0).1.watchers 4).newDeps
       = [] ∧
     ((watcherGet 4 true [Act.read 0, Act.fail 3] JSV.undef rsys0).1.watchers 4).deps =
       ((execActs [Act.read 0, Act.fail 3] (pushTarget (some 4) rsys0)).1.watchers 4).newDeps) := by
  have hfail : (execActs [Act.read 0, Act.fail 3] (pushTarget (some 4) rsys0)).2 = some 3 := by
    rw [execActs, execActs]
  exact ⟨hfail, c7_error_routing 4 true [Act.read 0, Act.fail 3] JSV.undef rsys0 3 hfail⟩

/-! ### Claim C9: teardown -/

theorem teardown_inactive (wid : Nat) (s : RSys) (h : (s.watchers wid).active = false) :
    teardown wid s = s := by
  unfold teardown
  rw [if_neg (by rw [h]; exact Bool.false_ne_true)]

theorem run_inactive (wid : Nat) (s : RSys) (h : (s.watchers wid).active = false) :
    run wid s = (s, none) := by
  unfold run
  rw [if_neg (by rw [h]; exact Bool.false_ne_true)]

/-- C9: teardown on an active watcher removes it from the subscriber list
of every Dep it holds (afterwards it appears in no subscriber list at
all), removes it from the vm watcher list unless the vm is being
destroyed, marks it inactive; a second teardown changes nothing, run on
the torn-down watcher does nothing, and a notify on any former dependency
never schedules it (so its callback is never invoked). -/
theorem c9_teardown (wid : Nat) (s : RSys)
    (h : WatcherInv s wid)
    (hact : (s.watchers wid).active = true)
    (hvm : ((s.vms (s.watchers wid).vmId).watchers).count wid ≤ 1) :
    (∀ d, wid ∉ (teardown wid s).subs d) ∧
    ((s.vms (s.watchers wid).vmId).isBeingDestroyed = false →
      wid ∉ ((teardown wid s).vms (s.watchers wid).vmId).watchers) ∧
    ((s.vms (s.watchers wid).vmId).isBeingDestroyed = true →
      ((teardown wid s).vms (s.watchers wid).vmId).watchers =
        (s.vms (s.watchers wid).vmId).watchers) ∧
    ((teardown wid s).watchers wid).active = false ∧
    teardown wid (teardown wid s) = teardown wid s ∧
    run wid (teardown wid s) = (teardown wid s, none) ∧
    (∀ d, wid ∉ notifyOrder (teardown wid s) d) := by
  obtain ⟨hnew, hnewIds, hdId, hdnd, hcoh, hcount⟩ := h
  have ht : teardown wid s =
      setW wid { s.watchers wid with active := false }
        ((s.watchers wid).deps.reverse.foldl (fun acc dep => removeSub dep wid acc)
          (if (s.vms (s.watchers wid).vmId).isBeingDestroyed then s
           else setVm (s.watchers wid).vmId
             { s.vms (s.watchers wid).vmId with
               watchers := (s.vms (s.watchers wid).vmId).watchers.erase wid } s)) := by
    unfold teardown
    rw [if_pos hact]
  have hs1subs : (if (s.vms (s.watchers wid).vmId).isBeingDestroyed then s
      else setVm (s.watchers wid).vmId
        { s.vms (s.watchers wid).vmId with
          watchers := (s.vms (s.watchers wid).vmId).watchers.erase wid } s).subs = s.subs := by
    by_cases hd : (s.vms (s.watchers wid).vmId).isBeingDestroyed
    · rw [if_pos hd]
    · rw [if_neg hd]
      rfl
  have hsubs : ∀ d, (teardown wid s).subs d =
      if d ∈ (s.watchers wid).deps then (s.subs d).erase wid else s.subs d := by
    intro d
    rw [ht]
    show ((s.watchers wid).deps.reverse.foldl (fun acc dep => removeSub dep wid acc) _).subs d
      = _
    rw [foldl_remove_subs wid _ (List.nodup_reverse.mpr hdnd) _ d]
    rw [if_congr List.mem_reverse rfl rfl]
    rw [hs1subs]
  have hnotin : ∀ d, wid ∉ (teardown wid s).subs d := by
    intro d
    rw [hsubs d]
    by_cases hin : d ∈ (s.watchers wid).deps
    · rw [if_pos hin]
      exact not_mem_erase_self_of_count_le _ wid (hcount d)
    · rw [if_neg hin]
      exact fun hm => hin ((hcoh d).mp hm)
  have hactF : ((teardown wid s).watchers wid).active = false := by
    rw [ht]
    simp [setW]
  have hvms : (teardown wid s).vms =
      (if (s.vms (s.watchers wid).vmId).isBeingDestroyed then s
       else setVm (s.watchers wid).vmId
         { s.vms (s.watchers wid).vmId with
           watchers := (s.vms (s.watchers wid).vmId).watchers.erase wid } s).vms := by
    rw [ht]
    show ((s.watchers wid).deps.reverse.foldl (fun acc dep => removeSub dep wid acc) _).vms = _
    rw [foldl_remove_vms]
  refine ⟨hnotin, ?_, ?_, hactF, ?_, ?_, ?_⟩
  · intro hd
    rw [hvms, if_neg (by rw [hd]; exact Bool.false_ne_true)]
    have hsv : ((setVm (s.watchers wid).vmId
        { s.vms (s.watchers wid).vmId with
          watchers := (s.vms (s.watchers wid).vmId).watchers.erase wid } s).vms
          (s.watchers wid).vmId).watchers =
        (s.vms (s.watchers wid).vmId).watchers.erase wid := by
      simp [setVm]
    rw [hsv]
    intro hm
    have h1 := List.count_erase_self wid (s.vms (s.watchers wid).vmId).watchers
    have h2 : 0 < ((s.vms (s.watchers wid).vmId).watchers.erase wid).count wid :=
      List.count_pos_iff.mpr hm
    omega
  · intro hd
    rw [hvms, if_pos hd]
  · exact teardown_inactive wid _ hactF
  · exact run_inactive wid _ hactF
  · intro d
    exact notifyOrder_not_mem _ d wid (hnotin d)

/-- Witness for C9 at a concrete input: a state in which watcher 3 holds
Dep 0, is subscribed to it, and is registered in the watcher list of vm
0. -/
theorem c9_witness :
    WatcherInv c9state 3 ∧ (c9state.watchers 3).active = true ∧
    ((c9state.vms (c9state.watchers 3).vmId).watchers).count 3 ≤ 1 ∧
    ((∀ d, 3 ∉ (teardown 3 c9state).subs d) ∧
     ((c9state.vms (c9state.watchers 3).vmId).isBeingDestroyed = false →
       3 ∉ ((teardown 3 c9state).vms (c9state.watchers 3).vmId).watchers) ∧
     ((c9state.vms (c9state.watchers 3).vmId).isBeingDestroyed = true →
       ((teardown 3 c9state).vms (c9state.watchers 3).vmId).watchers =
         (c9state.vms (c9state.watchers 3).vmId).watchers) ∧
     ((teardown 3 c9state).watchers 3).active = false ∧
     teardown 3 (teardown 3 c9state) = teardown 3 c9state ∧
     run 3 (teardown 3 c9state) = (teardown 3 c9state, none) ∧
     (∀ d, 3 ∉ notifyOrder (teardown 3 c9state) d)) := by
  have hInv : WatcherInv c9state 3 := by
    refine ⟨rfl, rfl, rfl, List.nodup_singleton 0, ?_, ?_⟩
    · intro d
      by_cases hd : d = 0 <;> simp [c9state, freshW, hd]
    · intro d
      by_cases hd : d = 0 <;> simp [c9state, hd]
  exact ⟨hInv, rfl, by simp [c9state], c9_teardown 3 c9state hInv rfl (by simp [c9state])⟩

/-! ### Claim C3: the notification round -/

theorem watcherGet_updateLog (wid : Nat) (user : Bool) (body : List Act) (ret : JSV)
    (s : RSys) : (watcherGet wid user body ret s).1.updateLog = s.updateLog := by
  have hw : watcherGet wid user body ret s =
      finishGet wid user ret (execActs body (pushTarget (some wid) s)).1
        (execActs body (pushTarget (some wid) s)).2 := rfl
  rw [hw, finishGet_updateLog, (execActs_frame body (pushTarget (some wid) s)).2]
  rfl

theorem run_updateLog (wid : Nat) (s : RSys) : (run wid s).1.updateLog = s.updateLog := by
  unfold run
  by_cases ha : (s.watchers wid).active = true
  · rw [if_pos ha]
    have hs1 := watcherGet_updateLog wid (s.watchers wid).user (s.watchers wid).getterActs
      (s.watchers wid).getterRet s
    revert hs1
    rcases watcherGet wid (s.watchers wid).user (s.watchers wid).getterActs
      (s.watchers wid).getterRet s with ⟨s1, e | v⟩
    · intro hs1
      exact hs1
    · intro hs1
      show (if (!strictEq v (s1.watchers wid).value || isObjectM v ||
            (s1.watchers wid).deep) = true
          then ({ setW wid { s1.watchers wid with value := v } s1 with
                  cbLog := (setW wid { s1.watchers wid with value := v } s1).cbLog ++
                    [(wid, v, (s1.watchers wid).value)] }, none)
          else (s1, none)).1.updateLog = s.updateLog
      split
      · simp only [setW]
        exact hs1
      · exact hs1
  · rw [if_neg ha]

theorem update_log (wid : Nat) (s : RSys) :
    (update wid s).1.updateLog = s.updateLog ++ [wid] := by
  unfold update
  by_cases hl : (s.watchers wid).lazyW = true
  · rw [if_pos hl]
    simp [setW]
  · rw [if_neg hl]
    by_cases hs : (s.watchers wid).sync = true
    · rw [if_pos hs, run_updateLog]
    · rw [if_neg hs]

theorem notifyGo_log : ∀ (l : List Nat) (s : RSys), (notifyGo l s).2 = none →
    (notifyGo l s).1.updateLog = s.updateLog ++ l := by
  intro l
  induction l with
  | nil => intro s _; simp [notifyGo]
  | cons w rest ih =>
    intro s h
    rw [notifyGo] at h ⊢
    rcases hres : update w s with ⟨s1, r⟩
    rw [hres] at h
    cases r with
    | none =>
      have hlog : s1.updateLog = s.updateLog ++ [w] := by
        rw [show s1 = (update w s).1 from by rw [hres]]
        exact update_log w s
      have h2 : (notifyGo rest s1).2 = none := h
      show (notifyGo rest s1).1.updateLog = _
      rw [ih s1 h2, hlog]
      simp
    | some e =>
      exact absurd h (by simp)

/-- C3 as frozen is false on the code: when a synchronous non-user
subscriber rethrows a getter failure out of update(), notify() aborts and
the remaining subscriber of the snapshot is never updated.  Dep 0 has
snapshot order 1, 2 in non-batched development mode, yet only watcher 1
received update() before error 7 escaped. -/
theorem c3_counterexample :
    (2 : Nat) ∈ notifyOrder c3cex 0 ∧
    (notify 0 c3cex).2 = some 7 ∧
    (notify 0 c3cex).1.updateLog = [1] := by
  have hx : execActs [Act.fail 7] (pushTarget (some 1) c3cexU) =
      (pushTarget (some 1) c3cexU, some 7) := by
    rw [execActs]
  have hwg : watcherGet 1 false [Act.fail 7] JSV.undef c3cexU =
      (cleanupDeps 1 (popTarget (pushTarget (some 1) c3cexU)), Except.error 7) := by
    show finishGet 1 false JSV.undef (execActs [Act.fail 7] (pushTarget (some 1) c3cexU)).1
      (execActs [Act.fail 7] (pushTarget (some 1) c3cexU)).2 = _
    rw [hx]
    rfl
  have hrun : run 1 c3cexU =
      (cleanupDeps 1 (popTarget (pushTarget (some 1) c3cexU)), some 7) := by
    unfold run
    rw [if_pos (show (c3cexU.watchers 1).active = true from rfl)]
    rw [show (c3cexU.watchers 1).user = false from rfl,
        show (c3cexU.watchers 1).getterActs = [Act.fail 7] from rfl,
        show (c3cexU.watchers 1).getterRet = JSV.undef from rfl]
    rw [hwg]
  have hno : notify 0 c3cex =
      (cleanupDeps 1 (popTarget (pushTarget (some 1) c3cexU)), some 7) := by
    show notifyGo (notifyOrder c3cex 0) c3cex = _
    rw [show notifyOrder c3cex 0 = [1, 2] from rfl]
    rw [notifyGo]
    rw [show update 1 c3cex = run 1 c3cexU from rfl, hrun]
  refine ⟨by rw [show notifyOrder c3cex 0 = [1, 2] from rfl]; simp, by rw [hno], ?_⟩
  rw [hno]
  show (cleanupDeps 1 (popTarget (pushTarget (some 1) c3cexU))).updateLog = [1]
  rw [cleanupDeps_updateLog]
  rfl

/-- C3 (amended): in non-batched development mode, notify() takes a
snapshot of the subscriber list and invokes update() on each snapshot
entry in ascending watcher-id order, independent of registration order
and of subscriber-list mutations performed during the round — provided
every update() returns normally (a synchronous non-user subscriber whose
getter throws aborts the remainder of the round, see the
counterexample). -/
theorem c3_snapshot_sorted_order (d : Nat) (s : RSys)
    (hprod : s.production = false) (hasync : s.async = false)
    (hdone : (notify d s).2 = none) :
    (notify d s).1.updateLog = s.updateLog ++ (s.subs d).insertionSort (· ≤ ·) ∧
    List.Sorted (· ≤ ·) (notifyOrder s d) ∧
    List.Perm (notifyOrder s d) (s.subs d) := by
  have hord : notifyOrder s d = (s.subs d).insertionSort (· ≤ ·) := by
    unfold notifyOrder
    rw [hprod, hasync]
    rfl
  refine ⟨?_, ?_, ?_⟩
  · have h1 := notifyGo_log (notifyOrder s d) s hdone
    rw [show (notify d s).1 = (notifyGo (notifyOrder s d) s).1 from rfl, h1, hord]
  · rw [hord]
    exact List.sorted_insertionSort _ _
  · rw [hord]
    exact List.perm_insertionSort _ _

/-- Witness for C3 at a concrete input: Dep 0 with subscribers 2 and 1
registered in that order; the completed round updates them as 1 then 2. -/
theorem c3_witness :
    c3state.production = false ∧ c3state.async = false ∧
    (notify 0 c3state).2 = none ∧
    ((notify 0 c3state).1.updateLog =
      c3state.updateLog ++ (c3state.subs 0).insertionSort (· ≤ ·) ∧
     List.Sorted (· ≤ ·) (notifyOrder c3state 0) ∧
     List.Perm (notifyOrder c3state 0) (c3state.subs 0)) := by
  have hdone : (notify 0 c3state).2 = none := by decide
  exact ⟨rfl, rfl, hdone, c3_snapshot_sorted_order 0 c3state rfl rfl hdone⟩

/-! ### Claims C4 and C10: the reactive setter -/

/-- C4 as frozen is false on the code: a write of a fresh value to a
reactive property whose pre-existing accessor has a getter but no setter
stores nothing and does not notify, although the claim requires the value
to be stored and the Dep to notify.  Here the current value is 0, the new
value 1 differs, yet the closure value stays 5, nothing is stored, and
notified is false. -/
theorem c4_counterexample :
    skipWrite (JSV.num 1) (currentValue getterOnlyProp ()) = false ∧
    (reactiveSetter getterOnlyProp false () none (JSV.num 1)).notified = false ∧
    (reactiveSetter getterOnlyProp false () none (JSV.num 1)).val = getterOnlyProp.val ∧
    (reactiveSetter getterOnlyProp false () none (JSV.num 1)).childOb = none :=
  ⟨rfl, rfl, rfl, rfl⟩

/-- C4 (amended): for a write through the reactive accessor of a property
that is not a getter-without-setter accessor property: if the new value
is identical to the current one (not-a-number equal to itself), nothing
is stored and the Dep does not notify; otherwise the new value is stored
(through the preserved custom setter when one exists, into the closure
value otherwise), the new value is observed unless shallow mode was
requested, and notify() fires. -/
theorem c4_setter_behavior {σ : Type} (c : PropClosure σ) (production : Bool)
    (obj : σ) (childOb : Option JSV) (newVal : JSV)
    (hns : (c.getter.isSome && !c.setter.isSome) = false) :
    (skipWrite newVal (currentValue c obj) = true →
      reactiveSetter c production obj childOb newVal =
        ⟨c.val, obj, childOb, false, false⟩) ∧
    (skipWrite newVal (currentValue c obj) = false →
      (reactiveSetter c production obj childOb newVal).notified = true ∧
      (∀ st, c.setter = some st →
        (reactiveSetter c production obj childOb newVal).obj = st obj newVal ∧
        (reactiveSetter c production obj childOb newVal).val = c.val) ∧
      (c.setter = none →
        (reactiveSetter c production obj childOb newVal).val = newVal ∧
        (reactiveSetter c production obj childOb newVal).obj = obj) ∧
      (reactiveSetter c production obj childOb newVal).childOb =
        (if !c.shallow then observeM newVal else none)) := by
  constructor
  · intro hskip
    unfold reactiveSetter
    rw [if_pos hskip]
  · intro hskip
    unfold reactiveSetter
    rw [if_neg (by rw [hskip]; exact Bool.false_ne_true)]
    rw [if_neg (by rw [hns]; exact Bool.false_ne_true)]
    cases hset : c.setter with
    | some st =>
      refine ⟨rfl, ?_, ?_, rfl⟩
      · intro st0 h0
        cases h0
        exact ⟨rfl, rfl⟩
      · intro h0
        cases h0
    | none =>
      refine ⟨rfl, ?_, fun _ => ⟨rfl, rfl⟩, rfl⟩
      intro st0 h0
      cases h0

/-- Witness for C4 at a concrete input: a plain data property (no
pre-existing accessor) receiving the fresh value 1 over the current
value 5. -/
theorem c4_witness :
    (plainProp.getter.isSome && !plainProp.setter.isSome) = false ∧
    ((skipWrite (JSV.num 1) (currentValue plainProp ()) = true →
      reactiveSetter plainProp false () none (JSV.num 1) =
        ⟨plainProp.val, (), none, false, false⟩) ∧
     (skipWrite (JSV.num 1) (currentValue plainProp ()) = false →
      (reactiveSetter plainProp false () none (JSV.num 1)).notified = true ∧
      (∀ st, plainProp.setter = some st →
        (reactiveSetter plainProp false () none (JSV.num 1)).obj = st () (JSV.num 1) ∧
        (reactiveSetter plainProp false () none (JSV.num 1)).val = plainProp.val) ∧
      (plainProp.setter = none →
        (reactiveSetter plainProp false () none (JSV.num 1)).val = JSV.num 1 ∧
        (reactiveSetter plainProp false () none (JSV.num 1)).obj = ()) ∧
      (reactiveSetter plainProp false () none (JSV.num 1)).childOb =
        (if !plainProp.shallow then observeM (JSV.num 1) else none))) :=
  ⟨rfl, c4_setter_behavior plainProp false () none (JSV.num 1) rfl⟩

/-- C10: for a reactive property defined over a pre-existing accessor
with a getter but no setter, every write through the reactive accessor is
a silent no-op: the stored value is unchanged, no child re-observation
happens, the external object is untouched, and the Dep does not
notify. -/
theorem c10_getter_no_setter_noop {σ : Type} (c : PropClosure σ) (production : Bool)
    (obj : σ) (childOb : Option JSV) (newVal : JSV) (g : σ → JSV)
    (hg : c.getter = some g) (hs : c.setter = none) :
    (reactiveSetter c production obj childOb newVal).val = c.val ∧
    (reactiveSetter c production obj childOb newVal).obj = obj ∧
    (reactiveSetter c production obj childOb newVal).childOb = childOb ∧
    (reactiveSetter c production obj childOb newVal).notified = false := by
  unfold reactiveSetter
  by_cases hskip : skipWrite newVal (currentValue c obj) = true
  · rw [if_pos hskip]
    exact ⟨rfl, rfl, rfl, rfl⟩
  · rw [if_neg hskip]
    rw [if_pos (by rw [hg, hs]; rfl)]
    exact ⟨rfl, rfl, rfl, rfl⟩

/-- Witness for C10 at a concrete input: a getter-only accessor property
receiving the differing value 1. -/
theorem c10_witness :
    getterOnlyProp.getter = some (fun _ => JSV.num 0) ∧
    getterOnlyProp.setter = none ∧
    ((reactiveSetter getterOnlyProp true () (some (JSV.ref 2)) (JSV.num 1)).val =
      getterOnlyProp.val ∧
     (reactiveSetter getterOnlyProp true () (some (JSV.ref 2)) (JSV.num 1)).obj = () ∧
     (reactiveSetter getterOnlyProp true () (some (JSV.ref 2)) (JSV.num 1)).childOb =
       some (JSV.ref 2) ∧
     (reactiveSetter getterOnlyProp true () (some (JSV.ref 2)) (JSV.num 1)).notified = false) :=
  ⟨rfl, rfl, c10_getter_no_setter_noop getterOnlyProp true () (some (JSV.ref 2)) (JSV.num 1)
    (fun _ => JSV.num 0) rfl rfl⟩

/-! ### Claim C5: function set on plain objects -/

/-- C5 as frozen is false on the code: for an observed object whose own
key toString shadows Object.prototype, set does not assign directly
through the existing accessor — the guard (key in target && !(key in
Object.prototype)) rejects the key, so set reinstalls a reactive accessor
via defineReactive and notifies the container-level Dep instead. -/
theorem c5_counterexample :
    Key.str "toString" ∈ c5o.fields.map Prod.fst ∧
    (set false (Tgt.obj c5o) (Key.str "toString") 2).2 =
      Except.ok ⟨Tgt.obj ⟨[(Key.str "toString", 2)], [Key.str "toString"], some 0, false⟩,
        2, true, false, SetPath.defineNotify⟩ := by
  constructor
  · decide
  · rfl

/-- C5 (amended): for a plain object target that is not root-tracked, set
assigns directly when the key is an own key not shadowing an
Object.prototype key (the existing accessor handles notification, the
container Dep stays silent); for every key that triggers no direct
assignment — an absent key, or any key naming an Object.prototype member,
own or not — set plain-assigns with no notification and no accessor when
the target is unobserved, and installs a reactive accessor via
defineReactive and notifies the container-level Dep when the target is
observed; in every non-throwing case set returns val. -/
theorem c5_set_paths (production : Bool) (o : ObjT) (key : Key) (val : Nat)
    (hiv : o.isVue = false) (hvm : ∀ vc, o.ob = some vc → vc = 0) :
    (key ∈ o.fields.map Prod.fst → key ∉ objectProtoKeys →
      set production (Tgt.obj o) key val =
        (false, Except.ok ⟨Tgt.obj { o with fields := setField o.fields key val }, val,
          false, false, SetPath.existingKey⟩)) ∧
    (key ∉ o.fields.map Prod.fst ∨ key ∈ objectProtoKeys →
      (o.ob = none →
        set production (Tgt.obj o) key val =
          (false, Except.ok ⟨Tgt.obj { o with fields := setField o.fields key val }, val,
            false, false, SetPath.plainAssign⟩)) ∧
      (∀ vc, o.ob = some vc →
        set production (Tgt.obj o) key val =
          (false, Except.ok ⟨defineReactiveOn (Tgt.obj o) key val, val, true, false,
            SetPath.defineNotify⟩))) ∧
    (∀ r, (set production (Tgt.obj o) key val).2 = Except.ok r → r.ret = val) := by
  refine ⟨?_, ?_, ?_⟩
  · intro hk hp
    simp [set, jsIn, getObM, isVueM, obVmTruthy, isUndefM, isPrimM, assignField, hk, hp]
  · intro hnd
    have hguard : ((decide (key ∈ o.fields.map Prod.fst) || decide (key ∈ objectProtoKeys)) &&
        !decide (key ∈ objectProtoKeys)) = false := by
      rcases hnd with h | h
      · by_cases h2 : key ∈ objectProtoKeys <;> simp [h, h2]
      · simp [h]
    constructor
    · intro hob
      simp [set, jsIn, getObM, isVueM, obVmTruthy, isUndefM, isPrimM, assignField,
        hguard, hob, hiv]
    · intro vc hob
      have hvc : vc = 0 := hvm vc hob
      subst hvc
      simp [set, jsIn, getObM, isVueM, obVmTruthy, isUndefM, isPrimM, assignField,
        hguard, hob, hiv]
  · intro r hr
    by_cases hk : key ∈ o.fields.map Prod.fst <;> by_cases hp : key ∈ objectProtoKeys <;>
      rcases hob : o.ob with _ | vc
    all_goals
      first
      | (simp [set, jsIn, getObM, isVueM, obVmTruthy, isUndefM, isPrimM, assignField,
          hk, hp, hob, hiv] at hr
         rw [← hr])
      | (have hvc : vc = 0 := hvm vc hob
         subst hvc
         simp [set, jsIn, getObM, isVueM, obVmTruthy, isUndefM, isPrimM, assignField,
           hk, hp, hob, hiv] at hr
         rw [← hr])

/-- Witness for C5 at two concrete inputs on the observed object c5o: the
fresh ordinary key k, and the Object.prototype name valueOf absent from
the own fields. -/
theorem c5_witness :
    c5o.isVue = false ∧ (∀ vc, c5o.ob = some vc → vc = 0) ∧
    ((Key.str "k" ∈ c5o.fields.map Prod.fst → Key.str "k" ∉ objectProtoKeys →
      set false (Tgt.obj c5o) (Key.str "k") 9 =
        (false, Except.ok ⟨Tgt.obj { c5o with fields := setField c5o.fields (Key.str "k") 9 },
          9, false, false, SetPath.existingKey⟩)) ∧
     (Key.str "k" ∉ c5o.fields.map Prod.fst ∨ Key.str "k" ∈ objectProtoKeys →
      (c5o.ob = none →
        set false (Tgt.obj c5o) (Key.str "k") 9 =
          (false, Except.ok ⟨Tgt.obj { c5o with fields := setField c5o.fields (Key.str "k") 9 },
            9, false, false, SetPath.plainAssign⟩)) ∧
      (∀ vc, c5o.ob = some vc →
        set false (Tgt.obj c5o) (Key.str "k") 9 =
          (false, Except.ok ⟨defineReactiveOn (Tgt.obj c5o) (Key.str "k") 9, 9, true, false,
            SetPath.defineNotify⟩))) ∧
     (∀ r, (set false (Tgt.obj c5o) (Key.str "k") 9).2 = Except.ok r → r.ret = 9)) ∧
    ((Key.str "valueOf" ∈ c5o.fields.map Prod.fst → Key.str "valueOf" ∉ objectProtoKeys →
      set false (Tgt.obj c5o) (Key.str "valueOf") 9 =
        (false, Except.ok ⟨Tgt.obj { c5o with
          fields := setField c5o.fields (Key.str "valueOf") 9 },
          9, false, false, SetPath.existingKey⟩)) ∧
     (Key.str "valueOf" ∉ c5o.fields.map Prod.fst ∨ Key.str "valueOf" ∈ objectProtoKeys →
      (c5o.ob = none →
        set false (Tgt.obj c5o) (Key.str "valueOf") 9 =
          (false, Except.ok ⟨Tgt.obj { c5o with
            fields := setField c5o.fields (Key.str "valueOf") 9 },
            9, false, false, SetPath.plainAssign⟩)) ∧
      (∀ vc, c5o.ob = some vc →
        set false (Tgt.obj c5o) (Key.str "valueOf") 9 =
          (false, Except.ok ⟨defineReactiveOn (Tgt.obj c5o) (Key.str "valueOf") 9, 9, true,
            false, SetPath.defineNotify⟩))) ∧
     (∀ r, (set false (Tgt.obj c5o) (Key.str "valueOf") 9).2 = Except.ok r → r.ret = 9)) := by
  have hvm : ∀ vc, c5o.ob = some vc → vc = 0 := by
    intro vc h
    cases h
    rfl
  exact ⟨rfl, hvm, c5_set_paths false c5o (Key.str "k") 9 rfl hvm,
    c5_set_paths false c5o (Key.str "valueOf") 9 rfl hvm⟩

/-! ### Claim C6: failure behaviour of set and del -/

/-- C6 as frozen is false on the code: set on an undefined target issues
the development warning and then throws a TypeError (the in-operator
rejects a non-object right operand), so the operation does throw. -/
theorem c6_counterexample :
    set false Tgt.undef (Key.str "k") 0 = (true, Except.error JsErr.typeError) := rfl

/-- C6 (amended): on undefined, null and primitive targets both
operations issue the (development-mode) entry warning, but they are not
no-ops that return normally: set then throws a TypeError for all three,
and del throws for undefined and null while returning silently unchanged
for a primitive; on a root-tracked plain object (vmCount positive or
_isVue) both operations warn in development mode, leave the target
unchanged and return without throwing — for set this covers the keys
that do not hit the direct-assignment guard. -/
theorem c6_warn_and_throw (production : Bool) (key : Key) (val : Nat) (n : Int) (o : ObjT)
    (hroot : o.isVue = true ∨ (∃ vc, o.ob = some vc ∧ vc ≠ 0)) :
    set production Tgt.undef key val = (!production, Except.error JsErr.typeError) ∧
    set production Tgt.null key val = (!production, Except.error JsErr.typeError) ∧
    set production (Tgt.prim n) key val = (!production, Except.error JsErr.typeError) ∧
    del production Tgt.undef key = (!production, Except.error JsErr.typeError) ∧
    del production Tgt.null key = (!production, Except.error JsErr.typeError) ∧
    del production (Tgt.prim n) key = (!production, Except.ok ⟨Tgt.prim n, false, false⟩) ∧
    ((key ∉ o.fields.map Prod.fst ∨ key ∈ objectProtoKeys) →
      set production (Tgt.obj o) key val =
        (false, Except.ok ⟨Tgt.obj o, val, false, !production, SetPath.rootWarn⟩)) ∧
    del production (Tgt.obj o) key =
      (false, Except.ok ⟨Tgt.obj o, false, !production⟩) := by
  have htruthy : (o.isVue || obVmTruthy o.ob) = true := by
    rcases hroot with h | ⟨vc, hob, hvc⟩
    · rw [h]
      rfl
    · rw [hob]
      simp [obVmTruthy, hvc]
  refine ⟨?_, ?_, ?_, ?_, ?_, ?_, ?_, ?_⟩
  · simp [set, jsIn, isUndefM, isPrimM]
  · simp [set, jsIn, isUndefM, isPrimM]
  · simp [set, jsIn, isUndefM, isPrimM]
  · simp [del, getObM, isUndefM, isPrimM]
  · simp [del, getObM, isUndefM, isPrimM]
  · simp [del, getObM, isVueM, obVmTruthy, hasOwnM, isUndefM, isPrimM]
  · intro hkey
    have hguard : ((decide (key ∈ o.fields.map Prod.fst) || decide (key ∈ objectProtoKeys)) &&
        !decide (key ∈ objectProtoKeys)) = false := by
      rcases hkey with h | h <;> by_cases h2 : key ∈ objectProtoKeys <;> simp [h, h2]
    simp [set, jsIn, getObM, isVueM, isUndefM, isPrimM, hguard, htruthy]
  · simp [del, getObM, isVueM, isUndefM, isPrimM, htruthy]

/-- Witness for C6 at a concrete input: the root-tracked object c6o
(vmCount 2) with key k. -/
theorem c6_witness :
    (c6o.isVue = true ∨ (∃ vc, c6o.ob = some vc ∧ vc ≠ 0)) ∧
    (set false Tgt.undef (Key.str "k") 0 = (true, Except.error JsErr.typeError) ∧
     set false Tgt.null (Key.str "k") 0 = (true, Except.error JsErr.typeError) ∧
     set false (Tgt.prim 7) (Key.str "k") 0 = (true, Except.error JsErr.typeError) ∧
     del false Tgt.undef (Key.str "k") = (true, Except.error JsErr.typeError) ∧
     del false Tgt.null (Key.str "k") = (true, Except.error JsErr.typeError) ∧
     del false (Tgt.prim 7) (Key.str "k") = (true, Except.ok ⟨Tgt.prim 7, false, false⟩) ∧
     ((Key.str "k" ∉ c6o.fields.map Prod.fst ∨ Key.str "k" ∈ objectProtoKeys) →
       set false (Tgt.obj c6o) (Key.str "k") 0 =
         (false, Except.ok ⟨Tgt.obj c6o, 0, false, true, SetPath.rootWarn⟩)) ∧
     del false (Tgt.obj c6o) (Key.str "k") =
       (false, Except.ok ⟨Tgt.obj c6o, false, true⟩)) := by
  have hroot : c6o.isVue = true ∨ (∃ vc, c6o.ob = some vc ∧ vc ≠ 0) :=
    Or.inr ⟨2, rfl, by decide⟩
  exact ⟨hroot, c6_warn_and_throw false (Key.str "k") 0 7 c6o hroot⟩

end Vue

